import Mathlib

/-!
# Request instrumentation of the sample app (`sample-app/index.js`)

The development embeds the metrics part of the Express application:

* the three instruments declared in `index.js` (lines 12-32): the counter
  `http_requests_total`, the histogram `http_request_duration_seconds` and the
  gauge `app_metrics_generated_timestamp_seconds`;
* the metrics middleware (lines 48-64), split into its start phase and the
  callback it registers on the response's `finish` event;
* the `GET /metrics` handler (lines 168-174).

The instruments are objects of the `prom-client` package, which is not part of
the repository sources.  Their operations (`inc`, `observe`, `startTimer`,
`set`, `metrics`) are modelled from the specification (sections 3, 4 and 6);
each such definition says so in its doc comment.

Mutable objects become explicit state passing: an operation takes the state
before the call and returns the state after it.  JavaScript numbers are
idealised: counter values are integers, durations, sums, bucket bounds and the
gauge value are exact rationals.  The clocks (`process.hrtime`, `Date.now`) are
inputs of the operations that read them.  The logging middleware (lines 37-44)
only writes to the console and is left out.
-/

namespace SampleApp

/-! ## Association lists -/

/-- Value stored under key `k`, or the default `d` when `k` has no entry. -/
def lookupD {κ ν : Type} [DecidableEq κ] (d : ν) : List (κ × ν) → κ → ν
  | [], _ => d
  | (k', v) :: rest, k => if k' = k then v else lookupD d rest k

/-- Replace the value `v` under key `k` by `f v`; when `k` has no entry, one is
created at the default `d` and then updated, at the end of the list. -/
def upsert {κ ν : Type} [DecidableEq κ] (d : ν) (f : ν → ν) : List (κ × ν) → κ → List (κ × ν)
  | [], k => [(k, f d)]
  | (k', v) :: rest, k =>
    if k' = k then (k', f v) :: rest else (k', v) :: upsert d f rest k

/-! ## Decimal numerals -/

/-- Number denoted by a string of decimal digits; a character below `'0'`
counts as the digit zero. -/
def digitsValue (cs : List Char) : Nat :=
  cs.foldl (fun acc ch => 10 * acc + (ch.toNat - 48)) 0

/-! ## Instruments -/

/-- Modelled from the spec: prom-client label objects. A label set is an ordered
mapping from label name to label value (spec section 3). -/
abbrev LabelSet := List (String × String)

/-- Modelled from the spec: the error taxonomy of spec section 7. -/
inductive MetricError where
  | DuplicateNameError
  | InvalidAmountError
deriving DecidableEq, Repr

/-- Modelled from the spec: prom-client `Counter`. A named instrument with help
text, mapping label sets to an integer count; absent label sets are implicitly
zero (spec section 3). -/
structure Counter where
  name : String
  help : String
  labelNames : List String
  values : List (LabelSet × Int)
deriving DecidableEq, Repr

/-- Current value of a label set, zero when it was never incremented. -/
def Counter.get (c : Counter) (L : LabelSet) : Int :=
  lookupD 0 c.values L

/-- Label sets that have an entry. -/
def Counter.labelSets (c : Counter) : List LabelSet :=
  c.values.map Prod.fst

/-- Modelled from the spec: prom-client `Counter.inc(labels, value)`, spec
section 4.2 and 7: "fails with InvalidAmountError if amount is negative.
Creates the labelSet entry at zero if absent, then adds amount"; on failure
"reject the call, leave state unchanged, surface to caller". The result is the
outcome of the call and the counter after it. -/
def Counter.increment (c : Counter) (L : LabelSet) (amount : Int) :
    Except MetricError Unit × Counter :=
  if amount < 0 then (.error .InvalidAmountError, c)
  else (.ok (), { c with values := upsert 0 (fun v => v + amount) c.values L })

/-- Modelled from the spec: `increment(labelSet, amount=1)` with the amount left
at its default, as in `httpRequestCounter.inc(labels)`. -/
def Counter.inc (c : Counter) (L : LabelSet) : Except MetricError Unit × Counter :=
  c.increment L 1

/-- The counter after a sequence of `increment` calls, each call applied to the
state the previous one left. -/
def Counter.incrementAll (c : Counter) : List (LabelSet × Int) → Counter
  | [] => c
  | (L, a) :: calls => Counter.incrementAll (c.increment L a).2 calls

/-- Modelled from the spec: the data a histogram keeps for one label set,
"(per-bucket cumulative count, sum of observed values, total observation
count)" together with the implicit +infinity bucket (spec section 3). -/
structure HistogramData where
  bucketCounts : List (ℚ × Nat)
  infCount : Nat
  sum : ℚ
  count : Nat
deriving DecidableEq, Repr

/-- Data of a label set that was never observed. -/
def HistogramData.zero : HistogramData :=
  { bucketCounts := [], infCount := 0, sum := 0, count := 0 }

/-- Cumulative count stored for the bucket with upper bound `B`. -/
def HistogramData.bucket (d : HistogramData) (B : ℚ) : Nat :=
  lookupD 0 d.bucketCounts B

/-- Modelled from the spec: the effect of one observation `v` on the data of its
label set (spec section 4.3): "for every configured bucket bound ≥ value,
increments that bucket's cumulative count by 1; increments total count by 1;
adds value to the running sum. Buckets are iterated in ascending order; the
implicit +infinity bucket always increments." -/
def HistogramData.record (bounds : List ℚ) (v : ℚ) (d : HistogramData) : HistogramData :=
  { bucketCounts :=
      bounds.foldl (fun bs B => if v ≤ B then upsert 0 (fun n => n + 1) bs B else bs)
        d.bucketCounts
    infCount := d.infCount + 1
    sum := d.sum + v
    count := d.count + 1 }

/-- Modelled from the spec: prom-client `Histogram`. A named instrument with
help text, a fixed sequence of bucket upper bounds and the data of every label
set observed so far (spec section 3). -/
structure Histogram where
  name : String
  help : String
  labelNames : List String
  buckets : List ℚ
  values : List (LabelSet × HistogramData)
deriving DecidableEq, Repr

/-- Data of a label set, all zero when it was never observed. -/
def Histogram.get (h : Histogram) (L : LabelSet) : HistogramData :=
  lookupD HistogramData.zero h.values L

/-- Modelled from the spec: prom-client `Histogram.observe(labels, value)` (spec
section 4.3). The entry of the label set is created lazily on first
observation; negative values are accepted. -/
def Histogram.observe (h : Histogram) (L : LabelSet) (v : ℚ) : Histogram :=
  { h with values := upsert HistogramData.zero (HistogramData.record h.buckets v) h.values L }

/-- The histogram after a sequence of `observe` calls. -/
def Histogram.observeAll (h : Histogram) : List (LabelSet × ℚ) → Histogram
  | [] => h
  | (L, v) :: calls => Histogram.observeAll (h.observe L v) calls

/-- Modelled from the spec: the stop function returned by `startTimer`, as the
handle of spec section 9: the label set and the monotonic time (seconds) at
capture. -/
structure Timer where
  labels : LabelSet
  start : ℚ
deriving DecidableEq, Repr

/-- Modelled from the spec: prom-client `Histogram.startTimer(labels)` (spec
section 4.3): "captures the current monotonic time"; the histogram is not
touched. -/
def Histogram.startTimer (_h : Histogram) (L : LabelSet) (now : ℚ) : Timer :=
  { labels := L, start := now }

/-- Modelled from the spec: invoking the stop function (spec section 4.3):
"computes elapsed seconds since capture and calls observe(labelSet, elapsed)
exactly once". -/
def Timer.stop (tm : Timer) (h : Histogram) (now : ℚ) : Histogram :=
  h.observe tm.labels (now - tm.start)

/-- Modelled from the spec: prom-client `Gauge`. A named instrument with help
text, mapping label sets to the latest set value (spec section 3). -/
structure Gauge where
  name : String
  help : String
  labelNames : List String
  values : List (LabelSet × ℚ)
deriving DecidableEq, Repr

/-- Latest value set for a label set, zero when never set. -/
def Gauge.get (g : Gauge) (L : LabelSet) : ℚ :=
  lookupD 0 g.values L

/-- Modelled from the spec: prom-client `Gauge.set(labels, value)` (spec section
4.4): "overwrites the stored value unconditionally". -/
def Gauge.set (g : Gauge) (L : LabelSet) (v : ℚ) : Gauge :=
  { g with values := upsert 0 (fun _ => v) g.values L }

/-- Modelled from the spec: what a prom-client `Registry` holds, "a collection
of uniquely-named instruments (Counter, Histogram, or Gauge)" (spec section 3). -/
inductive Instrument where
  | counter (c : Counter)
  | histogram (h : Histogram)
  | gauge (g : Gauge)
deriving DecidableEq, Repr

/-! ## Text exposition -/

/-- Modelled from the spec: the label part of a data line,
`{label1="value1",label2="value2"}` (spec section 6). -/
def renderLabels (L : LabelSet) : String :=
  "\x7b" ++ ",".intercalate (L.map (fun kv => kv.1 ++ "=\"" ++ kv.2 ++ "\"")) ++ "\x7d"

/-- Modelled from the spec: one data line, `<name>{...} <value>` (spec section 6). -/
def sampleLine (name : String) (L : LabelSet) (value : String) : String :=
  name ++ renderLabels L ++ " " ++ value

/-- Modelled from the spec: the `# HELP` and `# TYPE` lines of a block. -/
def headerLines (name help type : String) : List String :=
  ["# HELP " ++ name ++ " " ++ help, "# TYPE " ++ name ++ " " ++ type]

/-- Modelled from the spec: the block of a counter, one data line per label set. -/
def Counter.lines (c : Counter) : List String :=
  headerLines c.name c.help "counter" ++
    c.values.map (fun e => sampleLine c.name e.1 (toString e.2))

/-- Modelled from the spec: the block of a gauge; `fmt` is the text form of a
number, which the spec leaves to the exposition format. -/
def Gauge.lines (fmt : ℚ → String) (g : Gauge) : List String :=
  headerLines g.name g.help "gauge" ++
    g.values.map (fun e => sampleLine g.name e.1 (fmt e.2))

/-- Modelled from the spec: the lines of one label set of a histogram: a
`_bucket` line per configured bound, the `+Inf` bucket, `_sum` and `_count`. -/
def Histogram.seriesLines (fmt : ℚ → String) (h : Histogram) (e : LabelSet × HistogramData) :
    List String :=
  h.buckets.map (fun B =>
      sampleLine (h.name ++ "_bucket") (e.1 ++ [("le", fmt B)]) (toString (e.2.bucket B))) ++
    [sampleLine (h.name ++ "_bucket") (e.1 ++ [("le", "+Inf")]) (toString e.2.infCount),
     sampleLine (h.name ++ "_sum") e.1 (fmt e.2.sum),
     sampleLine (h.name ++ "_count") e.1 (toString e.2.count)]

/-- Modelled from the spec: the data lines of a histogram, label set by label set. -/
def Histogram.dataLines (fmt : ℚ → String) (h : Histogram) :
    List (LabelSet × HistogramData) → List String
  | [] => []
  | e :: rest => h.seriesLines fmt e ++ Histogram.dataLines fmt h rest

/-- Modelled from the spec: the block of a histogram. -/
def Histogram.lines (fmt : ℚ → String) (h : Histogram) : List String :=
  headerLines h.name h.help "histogram" ++ h.dataLines fmt h.values

/-- Modelled from the spec: the block `Registry.metrics()` writes for one
instrument (spec section 4.1). -/
def Instrument.lines (fmt : ℚ → String) : Instrument → List String
  | .counter c => c.lines
  | .histogram h => h.lines fmt
  | .gauge g => g.lines fmt

/-- Modelled from the spec: the lines `Registry.metrics()` writes, one block per
instrument, in registration order (spec section 4.1). -/
def renderLines (fmt : ℚ → String) : List Instrument → List String
  | [] => []
  | i :: rest => i.lines fmt ++ renderLines fmt rest

/-- Modelled from the spec: the text `Registry.metrics()` returns for the given
lines, each ended by a newline. -/
def unlines : List String → String
  | [] => ""
  | l :: rest => l ++ "\n" ++ unlines rest

/-- Modelled from the spec: `Registry.metrics()`, the `render` of spec section
4.1: a pure read of the registered instruments, one block per instrument. -/
def render (fmt : ℚ → String) (instruments : List Instrument) : String :=
  unlines (renderLines fmt instruments)

/-- Modelled from the spec: `register.contentType`, the "version-qualified
content type of the exposition format" (spec section 6). -/
def contentType : String := "text/plain; version=0.0.4; charset=utf-8"

/-! ## The application (`index.js`) -/

/-- An inbound request as the middleware and the handlers see it. -/
structure Request where
  method : String
  path : String
  query : List (String × String)
  headers : List (String × String)
  body : String
deriving DecidableEq, Repr

/-- What a handler writes to the response. -/
structure Response where
  statusCode : Nat
  headers : List (String × String)
  body : String
deriving DecidableEq, Repr

/-- The instruments of `index.js`; `defaultMetrics` stands for the instruments
that `collectDefaultMetrics` (line 10) puts into the same registry. -/
structure AppState where
  defaultMetrics : List Instrument
  httpRequestCounter : Counter
  httpRequestDuration : Histogram
  metricsGeneratedTs : Gauge
deriving DecidableEq, Repr

/-- The counter declared at lines 12-17, before any request. -/
def httpRequestCounter : Counter :=
  { name := "http_requests_total"
    help := "Total number of HTTP requests"
    labelNames := ["method", "route", "status"]
    values := [] }

/-- The histogram declared at lines 19-25, before any request. -/
def httpRequestDuration : Histogram :=
  { name := "http_request_duration_seconds"
    help := "HTTP request duration in seconds"
    labelNames := ["method", "route"]
    buckets := [0.1, 0.3, 0.5, 1, 2, 5]
    values := [] }

/-- The gauge declared at lines 28-32, before any request. -/
def metricsGeneratedTs : Gauge :=
  { name := "app_metrics_generated_timestamp_seconds"
    help := "Unix timestamp when /metrics response was generated"
    labelNames := []
    values := [] }

/-- State of the process after start-up. -/
def initialState (defaults : List Instrument) : AppState :=
  { defaultMetrics := defaults
    httpRequestCounter := httpRequestCounter
    httpRequestDuration := httpRequestDuration
    metricsGeneratedTs := metricsGeneratedTs }

/-- The registry `register` (line 9): the instruments in registration order
(lines 10, 16, 24, 31). -/
def register (st : AppState) : List Instrument :=
  st.defaultMetrics ++
    [.counter st.httpRequestCounter, .histogram st.httpRequestDuration,
     .gauge st.metricsGeneratedTs]

/-- The closure registered with `res.on('finish', ...)` at line 54: it captures
`req` and `endTimer`. -/
structure FinishCallback where
  req : Request
  endTimer : Timer
deriving DecidableEq, Repr

/-- Label set built at lines 49-52 from the request. -/
def timerLabels (req : Request) : LabelSet :=
  [("method", req.method), ("route", req.path)]

/-- Label set built at lines 55-59 from the request and `res.statusCode`. -/
def counterLabels (req : Request) (statusCode : Nat) : LabelSet :=
  [("method", req.method), ("route", req.path), ("status", toString statusCode)]

/-- Start phase of the metrics middleware (lines 48-53 and 63): the timer is
started with the method and route labels, the finish callback is registered,
`next()` is called. `now` is the monotonic clock in seconds. -/
def metricsMiddleware (st : AppState) (req : Request) (now : ℚ) : AppState × FinishCallback :=
  let endTimer := st.httpRequestDuration.startTimer (timerLabels req) now
  (st, { req := req, endTimer := endTimer })

/-- The finish callback (lines 54-61), run when the response has finished with
`statusCode`: `httpRequestCounter.inc` and then `endTimer()`. An exception of
`inc` would leave the callback before `endTimer()`. -/
def FinishCallback.run (cb : FinishCallback) (st : AppState) (statusCode : Nat) (now : ℚ) :
    AppState :=
  match st.httpRequestCounter.inc (counterLabels cb.req statusCode) with
  | (.error _, c) => { st with httpRequestCounter := c }
  | (.ok _, c) =>
    { st with
      httpRequestCounter := c
      httpRequestDuration := cb.endTimer.stop st.httpRequestDuration now }

/-- The `GET /metrics` handler (lines 168-174). `dateNow` is `Date.now()`, in
milliseconds since the Unix epoch; the status code stays at its default 200. -/
def metricsHandler (fmt : ℚ → String) (st : AppState) (_req : Request) (dateNow : Nat) :
    AppState × Response :=
  let st1 := { st with metricsGeneratedTs := st.metricsGeneratedTs.set [] ((dateNow : ℚ) / 1000) }
  (st1,
    { statusCode := 200
      headers := [("Content-Type", contentType)]
      body := render fmt (register st1) })

/-- A request that finished: the request, the status code of its response, and
the monotonic clock at the start of the middleware and at the finish event. -/
structure Finished where
  req : Request
  statusCode : Nat
  started : ℚ
  finished : ℚ
deriving DecidableEq, Repr

/-- Effect of one finished request on the instruments: middleware start, then
the finish callback. -/
def complete (st : AppState) (r : Finished) : AppState :=
  let p := metricsMiddleware st r.req r.started
  p.2.run p.1 r.statusCode r.finished

/-- Effect of a sequence of finished requests. -/
def completeAll (st : AppState) : List Finished → AppState
  | [] => st
  | r :: rest => completeAll (complete st r) rest

/-- Life of one request as far as the metrics middleware is concerned: either
the response never emits `finish` (only the start phase ran), or the request
finished. -/
inductive Lifecycle where
  | abandoned (req : Request) (started : ℚ)
  | completed (r : Finished)
deriving DecidableEq, Repr

/-- Effect of one request on the instruments. -/
def Lifecycle.apply (st : AppState) : Lifecycle → AppState
  | .abandoned req started => (metricsMiddleware st req started).1
  | .completed r => complete st r

/-- Effect of a sequence of requests, some of which never finish. -/
def runAll (st : AppState) : List Lifecycle → AppState
  | [] => st
  | e :: rest => runAll (Lifecycle.apply st e) rest

/-- The requests of a sequence that finished. -/
def finishedOf : List Lifecycle → List Finished
  | [] => []
  | .abandoned _ _ :: rest => finishedOf rest
  | .completed r :: rest => r :: finishedOf rest

/-- A whole `GET /metrics` request: middleware start at monotonic time `t0`,
the handler, then the finish event at monotonic time `t1` with the status code
of the response. Returns the state after the finish callback and the response. -/
def serveMetrics (fmt : ℚ → String) (st : AppState) (req : Request) (t0 : ℚ) (dateNow : Nat)
    (t1 : ℚ) : AppState × Response :=
  let p := metricsMiddleware st req t0
  let q := metricsHandler fmt p.1 req dateNow
  (p.2.run q.1 q.2.statusCode t1, q.2)

/-! ## Association lists: lookup after update -/

theorem lookupD_upsert_self {κ ν : Type} [DecidableEq κ] (d : ν) (f : ν → ν)
    (l : List (κ × ν)) (k : κ) :
    lookupD d (upsert d f l k) k = f (lookupD d l k) := by
  induction l with
  | nil => simp [upsert, lookupD]
  | cons e rest ih =>
    obtain ⟨k', v⟩ := e
    by_cases hk : k' = k
    · simp [upsert, lookupD, hk]
    · simp [upsert, lookupD, hk, ih]

theorem lookupD_upsert_of_ne {κ ν : Type} [DecidableEq κ] (d : ν) (f : ν → ν)
    (l : List (κ × ν)) {k k' : κ} (hne : k' ≠ k) :
    lookupD d (upsert d f l k) k' = lookupD d l k' := by
  induction l with
  | nil => simp [upsert, lookupD, Ne.symm hne]
  | cons e rest ih =>
    obtain ⟨k0, v⟩ := e
    by_cases hk : k0 = k
    · subst hk
      simp [upsert, lookupD, Ne.symm hne]
    · by_cases hk' : k0 = k'
      · subst hk'
        simp [upsert, lookupD, hk]
      · simp [upsert, lookupD, hk, hk', ih]

theorem mem_keys_upsert {κ ν : Type} [DecidableEq κ] (d : ν) (f : ν → ν)
    (l : List (κ × ν)) (k : κ) :
    k ∈ (upsert d f l k).map Prod.fst := by
  induction l with
  | nil => simp [upsert]
  | cons e rest ih =>
    obtain ⟨k', v⟩ := e
    by_cases hk : k' = k
    · simp [upsert, hk]
    · simp only [upsert, hk, if_false, List.map_cons, List.mem_cons]
      exact Or.inr ih

theorem mem_keys_upsert_of_ne {κ ν : Type} [DecidableEq κ] (d : ν) (f : ν → ν)
    (l : List (κ × ν)) {k k' : κ} (hne : k' ≠ k) :
    k' ∈ (upsert d f l k).map Prod.fst ↔ k' ∈ l.map Prod.fst := by
  induction l with
  | nil => simp [upsert, hne]
  | cons e rest ih =>
    obtain ⟨k0, v⟩ := e
    by_cases hk : k0 = k
    · simp [upsert, hk]
    · simp only [upsert, hk, if_false, List.map_cons, List.mem_cons, ih]

theorem upsert_of_not_mem {κ ν : Type} [DecidableEq κ] (d : ν) (f : ν → ν)
    (l : List (κ × ν)) (k : κ) (habs : k ∉ l.map Prod.fst) :
    upsert d f l k = l ++ [(k, f d)] := by
  induction l with
  | nil => simp [upsert]
  | cons e rest ih =>
    obtain ⟨k', v⟩ := e
    have hk : ¬ k' = k := by
      intro hk
      exact habs (by simp [hk])
    have hrest : k ∉ rest.map Prod.fst := by
      intro hm
      exact habs (by simp only [List.map_cons, List.mem_cons]; exact Or.inr hm)
    simp [upsert, hk, ih hrest]

/-! ## Decimal numerals are injective -/

theorem digitChar_toNat_sub (k : Nat) (hk : k < 10) : (Nat.digitChar k).toNat - 48 = k := by
  interval_cases k <;> rfl

theorem foldl_toDigitsCore (fuel : Nat) : ∀ (n : Nat) (ds : List Char), n < fuel →
    (Nat.toDigitsCore 10 fuel n ds).foldl (fun acc ch => 10 * acc + (ch.toNat - 48)) 0
      = ds.foldl (fun acc ch => 10 * acc + (ch.toNat - 48)) n := by
  induction fuel with
  | zero => intro n ds h; omega
  | succ fuel ih =>
    intro n ds h
    have hd : (Nat.digitChar (n % 10)).toNat - 48 = n % 10 :=
      digitChar_toNat_sub _ (Nat.mod_lt _ (by decide))
    by_cases h0 : n / 10 = 0
    · have hn : n % 10 = n := by omega
      rw [hn] at hd
      simp [Nat.toDigitsCore, h0, hd, hn]
    · have hlt : n / 10 < fuel := by omega
      have hn : 10 * (n / 10) + n % 10 = n := by omega
      simp [Nat.toDigitsCore, h0, ih _ _ hlt, hd, hn]

theorem digitsValue_toString (n : Nat) : digitsValue (toString n).data = n := by
  have h := foldl_toDigitsCore (n + 1) n [] (Nat.lt_succ_self n)
  simpa [digitsValue, toString, Nat.repr, Nat.toDigits] using h

theorem toString_nat_injective {a b : Nat} (h : toString a = toString b) : a = b := by
  have ha := digitsValue_toString a
  rw [h, digitsValue_toString] at ha
  exact ha.symm

/-! ## Counter -/

theorem Counter.increment_get_self (c : Counter) (L : LabelSet) (a : Int) (ha : 0 ≤ a) :
    (c.increment L a).2.get L = c.get L + a := by
  have hna : ¬ a < 0 := not_lt.mpr ha
  simp [Counter.increment, hna, Counter.get, lookupD_upsert_self]

theorem Counter.increment_get_of_ne (c : Counter) (L : LabelSet) (a : Int) {L' : LabelSet}
    (hne : L' ≠ L) : (c.increment L a).2.get L' = c.get L' := by
  by_cases ha : a < 0
  · simp [Counter.increment, ha]
  · simp [Counter.increment, ha, Counter.get, lookupD_upsert_of_ne _ _ _ hne]

theorem Counter.increment_get_of_neg (c : Counter) (L : LabelSet) (a : Int) (ha : a < 0) :
    (c.increment L a).2 = c := by
  simp [Counter.increment, ha]

/-- C8: `increment(L, a)` fails with the invalid-amount error exactly when `a` is
negative, and then the counter is the counter before the call. When `a ≥ 0` the
call succeeds, the label set `L` has an entry afterwards, its value is the old
value (zero when absent) plus `a`, and every other label set keeps its value
and its presence; name, help text and label names never change. -/
theorem Counter.increment_spec (c : Counter) (L : LabelSet) (a : Int) :
    ((c.increment L a).1 = .error .InvalidAmountError ↔ a < 0) ∧
    (a < 0 → (c.increment L a).2 = c) ∧
    (0 ≤ a →
      (c.increment L a).1 = .ok () ∧
      L ∈ (c.increment L a).2.labelSets ∧
      (c.increment L a).2.get L = c.get L + a ∧
      (L ∉ c.labelSets → (c.increment L a).2.values = c.values ++ [(L, 0 + a)]) ∧
      (∀ L', L' ≠ L →
        (c.increment L a).2.get L' = c.get L' ∧
        (L' ∈ (c.increment L a).2.labelSets ↔ L' ∈ c.labelSets)) ∧
      (c.increment L a).2.name = c.name ∧
      (c.increment L a).2.help = c.help ∧
      (c.increment L a).2.labelNames = c.labelNames) := by
  refine ⟨?_, Counter.increment_get_of_neg c L a, ?_⟩
  · by_cases ha : a < 0 <;> simp [Counter.increment, ha]
  · intro ha
    have hna : ¬ a < 0 := not_lt.mpr ha
    refine ⟨by simp [Counter.increment, hna], ?_, Counter.increment_get_self c L a ha, ?_, ?_,
      by simp [Counter.increment, hna], by simp [Counter.increment, hna],
      by simp [Counter.increment, hna]⟩
    · simpa [Counter.increment, hna, Counter.labelSets] using mem_keys_upsert 0 _ c.values L
    · intro habs
      simpa [Counter.increment, hna] using upsert_of_not_mem 0 (fun v => v + a) c.values L habs
    · intro L' hne
      refine ⟨Counter.increment_get_of_ne c L a hne, ?_⟩
      simpa [Counter.increment, hna, Counter.labelSets] using
        mem_keys_upsert_of_ne 0 (fun v => v + a) c.values hne

/-- C8, at concrete inputs: a call with amount `-2` is rejected and leaves the
counter as it was; a call with amount `3` on the fresh counter creates the
entry and stores `3`. -/
theorem Counter.increment_spec_witness :
    ((httpRequestCounter.increment [("method", "GET")] (-2)).1 = .error .InvalidAmountError) ∧
    ((httpRequestCounter.increment [("method", "GET")] (-2)).2 = httpRequestCounter) ∧
    ((httpRequestCounter.increment [("method", "GET")] 3).1 = .ok ()) ∧
    ((httpRequestCounter.increment [("method", "GET")] 3).2.get [("method", "GET")] = 3) := by
  have h := Counter.increment_spec httpRequestCounter [("method", "GET")]
  refine ⟨(h (-2)).1.mpr (by decide), (h (-2)).2.1 (by decide), ((h 3).2.2 (by decide)).1, ?_⟩
  exact ((h 3).2.2 (by decide)).2.2.1.trans (by decide)

theorem Counter.incrementAll_append (c : Counter) (p q : List (LabelSet × Int)) :
    c.incrementAll (p ++ q) = (c.incrementAll p).incrementAll q := by
  induction p generalizing c with
  | nil => rfl
  | cons e rest ih =>
    obtain ⟨L, a⟩ := e
    simp [Counter.incrementAll, ih]

theorem Counter.incrementAll_get (c : Counter) (calls : List (LabelSet × Int))
    (hnn : ∀ e ∈ calls, 0 ≤ e.2) (L : LabelSet) :
    (c.incrementAll calls).get L
      = c.get L + ((calls.filter (fun e => decide (e.1 = L))).map Prod.snd).sum := by
  induction calls generalizing c with
  | nil => simp [Counter.incrementAll]
  | cons e rest ih =>
    obtain ⟨L0, a⟩ := e
    have ha : 0 ≤ a := hnn (L0, a) (List.mem_cons_self _ _)
    have hrest : ∀ e ∈ rest, 0 ≤ e.2 := fun e he => hnn e (List.mem_cons_of_mem _ he)
    rw [Counter.incrementAll, ih _ hrest]
    by_cases hL : L0 = L
    · subst hL
      rw [Counter.increment_get_self c L0 a ha]
      simp [add_assoc]
    · rw [Counter.increment_get_of_ne c L0 a (Ne.symm hL)]
      simp [hL]

theorem sum_nonneg_of_calls (calls : List (LabelSet × Int)) (hnn : ∀ e ∈ calls, 0 ≤ e.2)
    (L : LabelSet) : 0 ≤ ((calls.filter (fun e => decide (e.1 = L))).map Prod.snd).sum := by
  apply List.sum_nonneg
  intro x hx
  obtain ⟨e, he, rfl⟩ := List.mem_map.mp hx
  exact hnn e (List.mem_filter.mp he).1

theorem complete_counter (st : AppState) (r : Finished) :
    (complete st r).httpRequestCounter
      = (st.httpRequestCounter.inc (counterLabels r.req r.statusCode)).2 := by
  simp [complete, metricsMiddleware, FinishCallback.run, Counter.inc, Counter.increment]

theorem counterLabels_eq_iff (req : Request) (statusCode : Nat) (m p : String) (s : Nat) :
    counterLabels req statusCode = [("method", m), ("route", p), ("status", toString s)]
      ↔ req.method = m ∧ req.path = p ∧ statusCode = s := by
  constructor
  · intro h
    simp only [counterLabels, List.cons.injEq, Prod.mk.injEq, true_and, and_true] at h
    exact ⟨h.1, h.2.1, toString_nat_injective h.2.2⟩
  · rintro ⟨rfl, rfl, rfl⟩
    rfl

theorem completeAll_counter_get (st : AppState) (rs : List Finished) (m p : String) (s : Nat) :
    (completeAll st rs).httpRequestCounter.get
        [("method", m), ("route", p), ("status", toString s)]
      = st.httpRequestCounter.get [("method", m), ("route", p), ("status", toString s)]
        + (rs.countP
            (fun r => decide (r.req.method = m ∧ r.req.path = p ∧ r.statusCode = s)) : Nat) := by
  induction rs generalizing st with
  | nil => simp [completeAll]
  | cons r rest ih =>
    rw [completeAll, ih, complete_counter, Counter.inc]
    by_cases hr : r.req.method = m ∧ r.req.path = p ∧ r.statusCode = s
    · have hL := (counterLabels_eq_iff r.req r.statusCode m p s).mpr hr
      rw [hL, Counter.increment_get_self _ _ _ (by decide)]
      simp [List.countP_cons, hr]
      ring
    · have hL : [("method", m), ("route", p), ("status", toString s)]
          ≠ counterLabels r.req r.statusCode := by
        intro h
        exact hr ((counterLabels_eq_iff r.req r.statusCode m p s).mp h.symm)
      rw [Counter.increment_get_of_ne _ _ _ hL]
      simp [List.countP_cons, hr]

/-- C3: on a counter that starts empty, after any finite sequence of `increment`
calls with non-negative amounts the value of a label set `L` is the sum of the
amounts of the calls made with `L` (zero when there is none), and the value
after a prefix of the sequence is at most the value after any longer prefix.
For the application: after any sequence of finished requests,
`http_requests_total` for method `m`, route `p` and status `s` is the number of
finished requests with these three values. -/
theorem Counter.incrementAll_spec (name help : String) (labelNames : List String)
    (calls : List (LabelSet × Int)) (hnn : ∀ e ∈ calls, 0 ≤ e.2) (L : LabelSet) :
    ((Counter.mk name help labelNames []).incrementAll calls).get L
        = ((calls.filter (fun e => decide (e.1 = L))).map Prod.snd).sum ∧
    (∀ p1 p2 : List (LabelSet × Int), p1 <+: p2 → p2 <+: calls →
      ((Counter.mk name help labelNames []).incrementAll p1).get L
        ≤ ((Counter.mk name help labelNames []).incrementAll p2).get L) ∧
    (∀ (defaults : List Instrument) (rs : List Finished) (m p : String) (s : Nat),
      (completeAll (initialState defaults) rs).httpRequestCounter.get
          [("method", m), ("route", p), ("status", toString s)]
        = (rs.countP
            (fun r => decide (r.req.method = m ∧ r.req.path = p ∧ r.statusCode = s)) : Nat)) := by
  refine ⟨?_, ?_, ?_⟩
  · rw [Counter.incrementAll_get _ _ hnn]
    simp [Counter.get, lookupD]
  · rintro p1 p2 ⟨q1, rfl⟩ ⟨q2, rfl⟩
    have h1 : ∀ e ∈ q1, 0 ≤ e.2 := fun e he =>
      hnn e (List.mem_append_left _ (List.mem_append_right _ he))
    rw [Counter.incrementAll_append, Counter.incrementAll_get _ q1 h1]
    have := sum_nonneg_of_calls q1 h1 L
    omega
  · intro defaults rs m p s
    rw [completeAll_counter_get]
    simp [initialState, httpRequestCounter, Counter.get, lookupD]

/-- C3, at a concrete sequence: increments by 2, 5 and 1 of which the first and
the last carry the label set `GET`; the value of `GET` is 3. -/
theorem Counter.incrementAll_spec_witness :
    (∀ e ∈ [([("method", "GET")], (2 : Int)), ([("method", "PUT")], 5), ([("method", "GET")], 1)],
      0 ≤ e.2) ∧
    ((Counter.mk "requests_total" "Requests" ["method"] []).incrementAll
        [([("method", "GET")], (2 : Int)), ([("method", "PUT")], 5), ([("method", "GET")], 1)]).get
      [("method", "GET")] = 3 :=
  ⟨by decide,
    (Counter.incrementAll_spec "requests_total" "Requests" ["method"]
      [([("method", "GET")], (2 : Int)), ([("method", "PUT")], 5), ([("method", "GET")], 1)]
      (by decide) [("method", "GET")]).1.trans (by decide)⟩

/-! ## Histogram -/

theorem foldl_bump_lookup (v : ℚ) (bounds : List ℚ) (hnd : bounds.Nodup) (B : ℚ) :
    ∀ bs : List (ℚ × Nat),
      lookupD 0
          (bounds.foldl (fun bs B => if v ≤ B then upsert 0 (fun n => n + 1) bs B else bs) bs) B
        = lookupD 0 bs B + (if B ∈ bounds ∧ v ≤ B then 1 else 0) := by
  induction bounds with
  | nil => intro bs; simp
  | cons b rest ih =>
    intro bs
    have hb : b ∉ rest := (List.nodup_cons.mp hnd).1
    rw [List.foldl_cons, ih (List.nodup_cons.mp hnd).2]
    by_cases hB : b = B
    · subst hB
      by_cases hv : v ≤ b
      · simp [hv, hb, lookupD_upsert_self]
      · simp [hv]
    · have hB' : B ≠ b := Ne.symm hB
      by_cases hv : v ≤ b
      · simp [hv, hB', lookupD_upsert_of_ne _ _ _ hB']
      · simp [hv, hB']

theorem HistogramData.record_bucket (bounds : List ℚ) (hnd : bounds.Nodup) (v : ℚ)
    (d : HistogramData) (B : ℚ) :
    (d.record bounds v).bucket B = d.bucket B + (if B ∈ bounds ∧ v ≤ B then 1 else 0) := by
  simp only [HistogramData.record, HistogramData.bucket]
  exact foldl_bump_lookup v bounds hnd B d.bucketCounts

theorem Histogram.observe_get_self (h : Histogram) (L : LabelSet) (v : ℚ) :
    (h.observe L v).get L = (h.get L).record h.buckets v := by
  simp [Histogram.observe, Histogram.get, lookupD_upsert_self]

theorem Histogram.observe_get_of_ne (h : Histogram) (L : LabelSet) (v : ℚ) {L' : LabelSet}
    (hne : L' ≠ L) : (h.observe L v).get L' = h.get L' := by
  simp [Histogram.observe, Histogram.get, lookupD_upsert_of_ne _ _ _ hne]

theorem httpRequestDuration_buckets_nodup : httpRequestDuration.buckets.Nodup := by
  simp only [httpRequestDuration]
  norm_num

/-- C2: in any state of the request-duration histogram (bounds 0.1, 0.3, 0.5,
1, 2, 5), `observe(L, v)` with any value `v`, negative or not, raises the
cumulative count of a configured bound `B` by one when `v ≤ B` and leaves it
as it is otherwise, raises the `+Inf` bucket by one, adds `v` to the sum of `L`
and one to its count. With bounds 0.1, 0.5, 1, `observe(L, 0.3)` on the empty
histogram gives counts 0, 1, 1, `+Inf` count 1, sum 0.3 and count 1. -/
theorem Histogram.observe_spec (h : Histogram) (hb : h.buckets = [0.1, 0.3, 0.5, 1, 2, 5])
    (L : LabelSet) (v : ℚ) :
    (∀ B ∈ h.buckets,
      ((h.observe L v).get L).bucket B = (h.get L).bucket B + (if v ≤ B then 1 else 0)) ∧
    ((h.observe L v).get L).infCount = (h.get L).infCount + 1 ∧
    ((h.observe L v).get L).sum = (h.get L).sum + v ∧
    ((h.observe L v).get L).count = (h.get L).count + 1 ∧
    (∀ name help : String, ∀ labelNames : List String,
      (((Histogram.mk name help labelNames [0.1, 0.5, 1] []).observe L 0.3).get L).bucket 0.1 = 0 ∧
      (((Histogram.mk name help labelNames [0.1, 0.5, 1] []).observe L 0.3).get L).bucket 0.5 = 1 ∧
      (((Histogram.mk name help labelNames [0.1, 0.5, 1] []).observe L 0.3).get L).bucket 1 = 1 ∧
      (((Histogram.mk name help labelNames [0.1, 0.5, 1] []).observe L 0.3).get L).infCount = 1 ∧
      (((Histogram.mk name help labelNames [0.1, 0.5, 1] []).observe L 0.3).get L).sum = 0.3 ∧
      (((Histogram.mk name help labelNames [0.1, 0.5, 1] []).observe L 0.3).get L).count = 1) := by
  have hnd : h.buckets.Nodup := by
    have := httpRequestDuration_buckets_nodup
    rw [hb]
    exact this
  refine ⟨?_, ?_, ?_, ?_, ?_⟩
  · intro B hB
    rw [Histogram.observe_get_self, HistogramData.record_bucket _ hnd]
    simp [hB]
  · rw [Histogram.observe_get_self]; rfl
  · rw [Histogram.observe_get_self]; rfl
  · rw [Histogram.observe_get_self]; rfl
  · intro name help labelNames
    have hnd3 : ([0.1, 0.5, 1] : List ℚ).Nodup := by norm_num
    rw [Histogram.observe_get_self]
    refine ⟨?_, ?_, ?_, ?_, ?_, ?_⟩
    · rw [HistogramData.record_bucket _ hnd3]
      norm_num [Histogram.get, lookupD, HistogramData.zero, HistogramData.bucket]
    · rw [HistogramData.record_bucket _ hnd3]
      norm_num [Histogram.get, lookupD, HistogramData.zero, HistogramData.bucket]
    · rw [HistogramData.record_bucket _ hnd3]
      norm_num [Histogram.get, lookupD, HistogramData.zero, HistogramData.bucket]
    · simp [HistogramData.record, Histogram.get, lookupD, HistogramData.zero]
    · simp [HistogramData.record, Histogram.get, lookupD, HistogramData.zero]
    · simp [HistogramData.record, Histogram.get, lookupD, HistogramData.zero]

/-- C2, at a concrete input: an observation of 0.3 under `GET /api` on the fresh
request-duration histogram leaves the bucket 0.1 at zero and puts one into the
bucket 0.5. -/
theorem Histogram.observe_spec_witness :
    httpRequestDuration.buckets = [0.1, 0.3, 0.5, 1, 2, 5] ∧
    ((httpRequestDuration.observe [("method", "GET"), ("route", "/api")] 0.3).get
        [("method", "GET"), ("route", "/api")]).bucket 0.1 = 0 ∧
    ((httpRequestDuration.observe [("method", "GET"), ("route", "/api")] 0.3).get
        [("method", "GET"), ("route", "/api")]).bucket 0.5 = 1 := by
  have h := (Histogram.observe_spec httpRequestDuration rfl
    [("method", "GET"), ("route", "/api")] 0.3).1
  refine ⟨rfl, ?_, ?_⟩
  · rw [h 0.1 (by simp [httpRequestDuration])]
    norm_num [Histogram.get, lookupD, HistogramData.zero, HistogramData.bucket,
      httpRequestDuration]
  · rw [h 0.5 (by simp [httpRequestDuration])]
    norm_num [Histogram.get, lookupD, HistogramData.zero, HistogramData.bucket,
      httpRequestDuration]

theorem Histogram.observeAll_bucket (h : Histogram) (hnd : h.buckets.Nodup)
    (obs : List (LabelSet × ℚ)) (L : LabelSet) (B : ℚ) (hB : B ∈ h.buckets) :
    ((h.observeAll obs).get L).bucket B
      = (h.get L).bucket B + obs.countP (fun o => decide (o.1 = L ∧ o.2 ≤ B)) := by
  induction obs generalizing h with
  | nil => simp [Histogram.observeAll]
  | cons o rest ih =>
    obtain ⟨L0, v⟩ := o
    rw [Histogram.observeAll, ih (h.observe L0 v) hnd hB]
    by_cases hL : L0 = L
    · subst hL
      rw [Histogram.observe_get_self, HistogramData.record_bucket _ hnd]
      by_cases hv : v ≤ B
      · simp [List.countP_cons, hv, hB]
        ring
      · simp [List.countP_cons, hv]
    · rw [Histogram.observe_get_of_ne h L0 v (Ne.symm hL)]
      simp [List.countP_cons, hL]

theorem Histogram.observeAll_count (h : Histogram) (obs : List (LabelSet × ℚ)) (L : LabelSet) :
    ((h.observeAll obs).get L).infCount
        = (h.get L).infCount + obs.countP (fun o => decide (o.1 = L)) ∧
    ((h.observeAll obs).get L).count
        = (h.get L).count + obs.countP (fun o => decide (o.1 = L)) ∧
    ((h.observeAll obs).get L).sum
        = (h.get L).sum + ((obs.filter (fun o => decide (o.1 = L))).map Prod.snd).sum := by
  induction obs generalizing h with
  | nil => simp [Histogram.observeAll]
  | cons o rest ih =>
    obtain ⟨L0, v⟩ := o
    rw [Histogram.observeAll]
    obtain ⟨h1, h2, h3⟩ := ih (h.observe L0 v)
    rw [h1, h2, h3]
    by_cases hL : L0 = L
    · subst hL
      rw [Histogram.observe_get_self]
      simp [List.countP_cons, HistogramData.record]
      refine ⟨by ring, by ring, by ring⟩
    · rw [Histogram.observe_get_of_ne h L0 v (Ne.symm hL)]
      simp [List.countP_cons, hL]

/-- C4: in the state reached from the empty histogram (pairwise distinct
configured bounds, as in every ascending sequence) by any finite sequence of
`observe` calls, for every label set `L`: the count stored for a configured
bound `B` is the number of observations made with `L` whose value is at most
`B`; for configured bounds `B1 ≤ B2` the count of `B1` is at most the count of
`B2`; and the `+Inf` count equals the total observation count of `L`, which is
the number of observations made with `L`. -/
theorem Histogram.observeAll_spec (name help : String) (labelNames : List String)
    (bounds : List ℚ) (hnd : bounds.Nodup) (obs : List (LabelSet × ℚ)) (L : LabelSet) :
    (∀ B ∈ bounds,
      (((Histogram.mk name help labelNames bounds []).observeAll obs).get L).bucket B
        = obs.countP (fun o => decide (o.1 = L ∧ o.2 ≤ B))) ∧
    (∀ B1 ∈ bounds, ∀ B2 ∈ bounds, B1 ≤ B2 →
      (((Histogram.mk name help labelNames bounds []).observeAll obs).get L).bucket B1
        ≤ (((Histogram.mk name help labelNames bounds []).observeAll obs).get L).bucket B2) ∧
    (((Histogram.mk name help labelNames bounds []).observeAll obs).get L).infCount
      = (((Histogram.mk name help labelNames bounds []).observeAll obs).get L).count ∧
    (((Histogram.mk name help labelNames bounds []).observeAll obs).get L).count
      = obs.countP (fun o => decide (o.1 = L)) := by
  have hbucket : ∀ B ∈ bounds,
      (((Histogram.mk name help labelNames bounds []).observeAll obs).get L).bucket B
        = obs.countP (fun o => decide (o.1 = L ∧ o.2 ≤ B)) := by
    intro B hB
    rw [Histogram.observeAll_bucket _ hnd obs L B hB]
    simp [Histogram.get, lookupD, HistogramData.zero, HistogramData.bucket]
  obtain ⟨hinf, hcount, _⟩ :=
    Histogram.observeAll_count (Histogram.mk name help labelNames bounds []) obs L
  refine ⟨hbucket, ?_, ?_, ?_⟩
  · intro B1 hB1 B2 hB2 hle
    rw [hbucket B1 hB1, hbucket B2 hB2]
    apply List.countP_mono_left
    intro o _ ho
    simp only [decide_eq_true_eq] at ho ⊢
    exact ⟨ho.1, le_trans ho.2 hle⟩
  · rw [hinf, hcount]
    simp [Histogram.get, lookupD, HistogramData.zero]
  · rw [hcount]
    simp [Histogram.get, lookupD, HistogramData.zero]

/-- C4, on the request-duration histogram: after observations 0.2 and 0.7 under
one label set and 0.05 under another, the first label set has one observation
at most 0.3 and two observations in all. -/
theorem Histogram.observeAll_spec_witness :
    httpRequestDuration.buckets.Nodup ∧
    ((httpRequestDuration.observeAll
        [([("route", "/api")], 0.2), ([("route", "/")], 0.05), ([("route", "/api")], 0.7)]).get
      [("route", "/api")]).bucket 0.3 = 1 ∧
    ((httpRequestDuration.observeAll
        [([("route", "/api")], 0.2), ([("route", "/")], 0.05), ([("route", "/api")], 0.7)]).get
      [("route", "/api")]).count = 2 := by
  have h := Histogram.observeAll_spec "http_request_duration_seconds"
    "HTTP request duration in seconds" ["method", "route"] [0.1, 0.3, 0.5, 1, 2, 5]
    httpRequestDuration_buckets_nodup
    [([("route", "/api")], 0.2), ([("route", "/")], 0.05), ([("route", "/api")], 0.7)]
    [("route", "/api")]
  refine ⟨httpRequestDuration_buckets_nodup, ?_, ?_⟩
  · refine (h.1 0.3 (by simp)).trans ?_
    have hne : ¬ ("/" : String) = "/api" := by decide
    norm_num [List.countP_cons, hne]
  · refine h.2.2.2.trans ?_
    simp [List.countP_cons]

/-! ## Metrics middleware -/

theorem FinishCallback.run_eq (cb : FinishCallback) (st : AppState) (statusCode : Nat) (now : ℚ) :
    cb.run st statusCode now =
      { st with
        httpRequestCounter := (st.httpRequestCounter.inc (counterLabels cb.req statusCode)).2
        httpRequestDuration := cb.endTimer.stop st.httpRequestDuration now } := by
  simp [FinishCallback.run, Counter.inc, Counter.increment]

/-- C1: let the middleware start for a request with method `m` and path `p` at
time `t0`, and let the response finish with any status code `s` at time `t1`,
in whatever state `st2` the instruments are by then. The finish callback adds
exactly 1 to `http_requests_total` for method `m`, route `p`, status `s`, and
performs exactly one `observe`, of `t1 - t0`, on `http_request_duration_seconds`
for method `m`, route `p`: the count and the `+Inf` bucket of that label set
grow by one and its sum by `t1 - t0`. Every other label set of either
instrument keeps its value, and the gauge and the default instruments are not
touched. -/
theorem metricsMiddleware_finish_spec (st st2 : AppState) (req : Request) (s : Nat)
    (t0 t1 : ℚ) :
    ((metricsMiddleware st req t0).2.run st2 s t1).httpRequestCounter.get
        [("method", req.method), ("route", req.path), ("status", toString s)]
      = st2.httpRequestCounter.get
          [("method", req.method), ("route", req.path), ("status", toString s)] + 1 ∧
    (∀ L : LabelSet, L ≠ [("method", req.method), ("route", req.path), ("status", toString s)] →
      ((metricsMiddleware st req t0).2.run st2 s t1).httpRequestCounter.get L
        = st2.httpRequestCounter.get L) ∧
    ((metricsMiddleware st req t0).2.run st2 s t1).httpRequestDuration
      = st2.httpRequestDuration.observe [("method", req.method), ("route", req.path)] (t1 - t0) ∧
    (((metricsMiddleware st req t0).2.run st2 s t1).httpRequestDuration.get
        [("method", req.method), ("route", req.path)]).count
      = (st2.httpRequestDuration.get [("method", req.method), ("route", req.path)]).count + 1 ∧
    (((metricsMiddleware st req t0).2.run st2 s t1).httpRequestDuration.get
        [("method", req.method), ("route", req.path)]).infCount
      = (st2.httpRequestDuration.get [("method", req.method), ("route", req.path)]).infCount + 1 ∧
    (((metricsMiddleware st req t0).2.run st2 s t1).httpRequestDuration.get
        [("method", req.method), ("route", req.path)]).sum
      = (st2.httpRequestDuration.get [("method", req.method), ("route", req.path)]).sum
          + (t1 - t0) ∧
    (∀ L : LabelSet, L ≠ [("method", req.method), ("route", req.path)] →
      ((metricsMiddleware st req t0).2.run st2 s t1).httpRequestDuration.get L
        = st2.httpRequestDuration.get L) ∧
    ((metricsMiddleware st req t0).2.run st2 s t1).metricsGeneratedTs = st2.metricsGeneratedTs ∧
    ((metricsMiddleware st req t0).2.run st2 s t1).defaultMetrics = st2.defaultMetrics := by
  have hd : ((metricsMiddleware st req t0).2.run st2 s t1).httpRequestDuration
      = st2.httpRequestDuration.observe [("method", req.method), ("route", req.path)]
          (t1 - t0) := by
    rw [FinishCallback.run_eq]
    rfl
  have hc : ((metricsMiddleware st req t0).2.run st2 s t1).httpRequestCounter
      = (st2.httpRequestCounter.increment
          [("method", req.method), ("route", req.path), ("status", toString s)] 1).2 := by
    rw [FinishCallback.run_eq]
    rfl
  have hg : ((metricsMiddleware st req t0).2.run st2 s t1).metricsGeneratedTs
      = st2.metricsGeneratedTs := by
    rw [FinishCallback.run_eq]
  have hdm : ((metricsMiddleware st req t0).2.run st2 s t1).defaultMetrics
      = st2.defaultMetrics := by
    rw [FinishCallback.run_eq]
  rw [hd, hc]
  refine ⟨?_, ?_, rfl, ?_, ?_, ?_, ?_, hg, hdm⟩
  · exact Counter.increment_get_self _ _ 1 (by decide)
  · intro L hL
    exact Counter.increment_get_of_ne _ _ 1 hL
  · rw [Histogram.observe_get_self]; rfl
  · rw [Histogram.observe_get_self]; rfl
  · rw [Histogram.observe_get_self]; rfl
  · intro L hL
    exact Histogram.observe_get_of_ne _ _ _ hL

/-- C1, at a concrete request: a `POST /api` whose response finishes with status
500 on the fresh application leaves every counter entry other than its own at
its old value, here the entry of `GET /api` with status 200 at zero. -/
theorem metricsMiddleware_finish_spec_witness :
    ([("method", "GET"), ("route", "/api"), ("status", "200")]
        ≠ [("method", "POST"), ("route", "/api"), ("status", toString 500)]) ∧
    ((metricsMiddleware (initialState []) ⟨"POST", "/api", [], [], ""⟩ 0).2.run
        (initialState []) 500 (1 / 4)).httpRequestCounter.get
      [("method", "GET"), ("route", "/api"), ("status", "200")] = 0 :=
  ⟨by decide,
    ((metricsMiddleware_finish_spec (initialState []) (initialState [])
      ⟨"POST", "/api", [], [], ""⟩ 500 0 (1 / 4)).2.1
        [("method", "GET"), ("route", "/api"), ("status", "200")] (by decide)).trans
      (by decide)⟩

theorem runAll_eq_completeAll (st : AppState) (evs : List Lifecycle) :
    runAll st evs = completeAll st (finishedOf evs) := by
  induction evs generalizing st with
  | nil => rfl
  | cons e rest ih =>
    cases e with
    | abandoned req started =>
      rw [runAll, finishedOf, ih]
      rfl
    | completed r =>
      rw [runAll, finishedOf, completeAll, ih]
      rfl

/-- C9: the start phase of the metrics middleware returns the state it was
given, so `http_requests_total` and `http_request_duration_seconds` are
unchanged by it; what it hands to the finish event is the request and the
timer carrying the method and route labels and the start time. Hence, in any
sequence of requests of which some never emit `finish`, the instruments end up
exactly as if only the finished requests had been served: a request that never
finishes adds no counter increment and no histogram observation. -/
theorem metricsMiddleware_start_spec (st : AppState) (req : Request) (now : ℚ) :
    (metricsMiddleware st req now).1 = st ∧
    (metricsMiddleware st req now).1.httpRequestCounter = st.httpRequestCounter ∧
    (metricsMiddleware st req now).1.httpRequestDuration = st.httpRequestDuration ∧
    (metricsMiddleware st req now).2.req = req ∧
    (metricsMiddleware st req now).2.endTimer
      = { labels := [("method", req.method), ("route", req.path)], start := now } ∧
    (∀ evs : List Lifecycle, runAll st evs = completeAll st (finishedOf evs)) ∧
    (∀ evs : List Lifecycle, finishedOf evs = [] →
      (runAll st evs).httpRequestCounter = st.httpRequestCounter ∧
      (runAll st evs).httpRequestDuration = st.httpRequestDuration) := by
  refine ⟨rfl, rfl, rfl, rfl, rfl, runAll_eq_completeAll st, ?_⟩
  intro evs hevs
  rw [runAll_eq_completeAll, hevs]
  exact ⟨rfl, rfl⟩

/-- C9, at a concrete sequence: two requests that never finish leave the fresh
counter and histogram as they were. -/
theorem metricsMiddleware_start_spec_witness :
    finishedOf [.abandoned ⟨"GET", "/api", [], [], ""⟩ 0,
      .abandoned ⟨"GET", "/health", [], [], ""⟩ 1] = [] ∧
    (runAll (initialState [])
      [.abandoned ⟨"GET", "/api", [], [], ""⟩ 0,
        .abandoned ⟨"GET", "/health", [], [], ""⟩ 1]).httpRequestCounter
      = httpRequestCounter :=
  ⟨rfl,
    ((metricsMiddleware_start_spec (initialState []) ⟨"GET", "/", [], [], ""⟩ 0).2.2.2.2.2.2
      [.abandoned ⟨"GET", "/api", [], [], ""⟩ 0, .abandoned ⟨"GET", "/health", [], [], ""⟩ 1]
      rfl).1⟩

/-! ## The `/metrics` handler -/

theorem mem_upsert {κ ν : Type} [DecidableEq κ] (d : ν) (f : ν → ν)
    (l : List (κ × ν)) (k : κ) :
    (k, f (lookupD d l k)) ∈ upsert d f l k := by
  induction l with
  | nil => simp [upsert, lookupD]
  | cons e rest ih =>
    obtain ⟨k', v⟩ := e
    by_cases hk : k' = k
    · simp [upsert, lookupD, hk]
    · simp only [upsert, lookupD, hk, if_false, List.mem_cons]
      exact Or.inr ih

theorem renderLines_append (fmt : ℚ → String) (a b : List Instrument) :
    renderLines fmt (a ++ b) = renderLines fmt a ++ renderLines fmt b := by
  induction a with
  | nil => rfl
  | cons i rest ih => simp [renderLines, ih]

theorem renderLines_register (fmt : ℚ → String) (st : AppState) :
    renderLines fmt (register st)
      = renderLines fmt st.defaultMetrics ++ st.httpRequestCounter.lines
          ++ st.httpRequestDuration.lines fmt ++ st.metricsGeneratedTs.lines fmt := by
  simp [register, renderLines_append, renderLines, Instrument.lines]

/-- C6: for every state and every clock reading `t` (milliseconds), the handler
stores exactly `t / 1000` in the gauge under the empty label set, whatever was
there before (a previous value is replaced, not accumulated), and the body it
returns is the rendering of the registry in the state after that update, whole
and unchanged; the rendered lines contain the gauge line carrying `t / 1000`.
The status code is 200 and the content type is the one of the registry. -/
theorem metricsHandler_spec (fmt : ℚ → String) (st : AppState) (req : Request) (t : Nat) :
    (metricsHandler fmt st req t).1.metricsGeneratedTs
      = st.metricsGeneratedTs.set [] ((t : ℚ) / 1000) ∧
    (metricsHandler fmt st req t).1.metricsGeneratedTs.get [] = (t : ℚ) / 1000 ∧
    (st.metricsGeneratedTs.values = [] →
      (metricsHandler fmt st req t).1.metricsGeneratedTs.values = [([], (t : ℚ) / 1000)]) ∧
    (∀ old : ℚ, st.metricsGeneratedTs.values = [([], old)] →
      (metricsHandler fmt st req t).1.metricsGeneratedTs.values = [([], (t : ℚ) / 1000)]) ∧
    (metricsHandler fmt st req t).2.body
      = render fmt (register (metricsHandler fmt st req t).1) ∧
    sampleLine st.metricsGeneratedTs.name [] (fmt ((t : ℚ) / 1000))
      ∈ renderLines fmt (register (metricsHandler fmt st req t).1) ∧
    (metricsHandler fmt st req t).2.statusCode = 200 ∧
    (metricsHandler fmt st req t).2.headers = [("Content-Type", contentType)] := by
  refine ⟨rfl, ?_, ?_, ?_, rfl, ?_, rfl, rfl⟩
  · simp [metricsHandler, Gauge.set, Gauge.get, lookupD_upsert_self]
  · intro hv
    simp [metricsHandler, Gauge.set, hv, upsert]
  · intro old hv
    simp [metricsHandler, Gauge.set, hv, upsert]
  · rw [renderLines_register]
    apply List.mem_append_right
    have hmem := mem_upsert (0 : ℚ) (fun _ => (t : ℚ) / 1000) st.metricsGeneratedTs.values
      ([] : LabelSet)
    simp only [metricsHandler, Gauge.lines, Gauge.set]
    apply List.mem_append_right
    exact List.mem_map.mpr ⟨_, hmem, rfl⟩

/-- C6, at a concrete state: the gauge held 1700000000 and the clock reads
1700000123456 ms; afterwards the gauge holds 1700000123456 / 1000 only. -/
theorem metricsHandler_spec_witness :
    ({ initialState [] with
        metricsGeneratedTs := metricsGeneratedTs.set [] 1700000000 }).metricsGeneratedTs.values
      = [([], (1700000000 : ℚ))] ∧
    (metricsHandler (fun q => toString q.num ++ "/" ++ toString q.den)
        { initialState [] with metricsGeneratedTs := metricsGeneratedTs.set [] 1700000000 }
        ⟨"GET", "/metrics", [], [], ""⟩ 1700000123456).1.metricsGeneratedTs.values
      = [([], ((1700000123456 : Nat) : ℚ) / 1000)] :=
  ⟨rfl,
    (metricsHandler_spec (fun q => toString q.num ++ "/" ++ toString q.den)
      { initialState [] with metricsGeneratedTs := metricsGeneratedTs.set [] 1700000000 }
      ⟨"GET", "/metrics", [], [], ""⟩ 1700000123456).2.2.2.1 1700000000 rfl⟩

/-- C7: for every state, clock reading and request, the handler leaves the
counter `http_requests_total` and the histogram `http_request_duration_seconds`
exactly as they were (every entry, bucket count, sum and count), as well as the
default instruments and the name, help text and label names of the gauge; and
two requests that differ in any field give the same state and the same
response. -/
theorem metricsHandler_frame (fmt : ℚ → String) (st : AppState) (req req2 : Request)
    (t : Nat) :
    (metricsHandler fmt st req t).1.httpRequestCounter = st.httpRequestCounter ∧
    (metricsHandler fmt st req t).1.httpRequestDuration = st.httpRequestDuration ∧
    (metricsHandler fmt st req t).1.defaultMetrics = st.defaultMetrics ∧
    (metricsHandler fmt st req t).1.metricsGeneratedTs.name = st.metricsGeneratedTs.name ∧
    (metricsHandler fmt st req t).1.metricsGeneratedTs.help = st.metricsGeneratedTs.help ∧
    (metricsHandler fmt st req t).1.metricsGeneratedTs.labelNames
      = st.metricsGeneratedTs.labelNames ∧
    (∀ L : LabelSet,
      (metricsHandler fmt st req t).1.httpRequestCounter.get L = st.httpRequestCounter.get L ∧
      (metricsHandler fmt st req t).1.httpRequestDuration.get L
        = st.httpRequestDuration.get L) ∧
    (∀ L : LabelSet, L ≠ [] →
      (metricsHandler fmt st req t).1.metricsGeneratedTs.get L = st.metricsGeneratedTs.get L) ∧
    metricsHandler fmt st req t = metricsHandler fmt st req2 t := by
  refine ⟨rfl, rfl, rfl, rfl, rfl, rfl, fun L => ⟨rfl, rfl⟩, ?_, rfl⟩
  intro L hL
  simp [metricsHandler, Gauge.set, Gauge.get, lookupD_upsert_of_ne _ _ _ hL]

/-- C7, at a concrete state: the gauge entry of a non-empty label set is not
touched by the handler. -/
theorem metricsHandler_frame_witness :
    ([("instance", "a")] : LabelSet) ≠ [] ∧
    (metricsHandler (fun q => toString q.num) (initialState [])
        ⟨"GET", "/metrics", [], [], ""⟩ 5).1.metricsGeneratedTs.get [("instance", "a")]
      = (initialState []).metricsGeneratedTs.get [("instance", "a")] :=
  ⟨by decide,
    (metricsHandler_frame (fun q => toString q.num) (initialState [])
      ⟨"GET", "/metrics", [], [], ""⟩ ⟨"POST", "/", [], [], ""⟩ 5).2.2.2.2.2.2.2.1
      [("instance", "a")] (by decide)⟩

/-! ## Rendering a counter -/

theorem unlines_append (a b : List String) : unlines (a ++ b) = unlines a ++ unlines b := by
  induction a with
  | nil => simp [unlines]
  | cons l rest ih => simp [unlines, ih, String.append_assoc]

theorem toString_int_ofNat (n : Nat) : toString ((n : Nat) : Int) = toString n := rfl

theorem Counter.incrementAll_replicate_values (c : Counter) (L : LabelSet) (k : Int)
    (hv : c.values = [(L, k)]) (m : Nat) :
    (c.incrementAll (List.replicate m (L, 1))).values = [(L, k + m)] ∧
    (c.incrementAll (List.replicate m (L, 1))).name = c.name ∧
    (c.incrementAll (List.replicate m (L, 1))).help = c.help := by
  induction m generalizing c k with
  | zero => simp [Counter.incrementAll, hv]
  | succ m ih =>
    have hstep : ((c.increment L 1).2).values = [(L, k + 1)] := by
      simp [Counter.increment, hv, upsert]
    obtain ⟨h1, h2, h3⟩ := ih (c.increment L 1).2 (k + 1) hstep
    rw [List.replicate_succ, Counter.incrementAll]
    refine ⟨?_, ?_, ?_⟩
    · rw [h1]
      simp
      ring
    · rw [h2]
      simp [Counter.increment]
    · rw [h3]
      simp [Counter.increment]

theorem Counter.incrementAll_fresh (name help : String) (labelNames : List String)
    (L : LabelSet) (n : Nat) (hn : 1 ≤ n) :
    ((Counter.mk name help labelNames []).incrementAll (List.replicate n (L, 1))).lines
      = ["# HELP " ++ name ++ " " ++ help, "# TYPE " ++ name ++ " counter",
         sampleLine name L (toString n)] := by
  obtain ⟨m, rfl⟩ : ∃ m, n = m + 1 := ⟨n - 1, by omega⟩
  have hstep : (((Counter.mk name help labelNames []).increment L 1).2).values = [(L, 1)] := by
    simp [Counter.increment, upsert]
  obtain ⟨h1, h2, h3⟩ := Counter.incrementAll_replicate_values _ L 1 hstep m
  rw [List.replicate_succ, Counter.incrementAll]
  have hval : ((1 : Int) + (m : Int)) = ((m + 1 : Nat) : Int) := by push_cast; ring
  have htype : "# TYPE " ++ name ++ " " ++ "counter" = "# TYPE " ++ name ++ " counter" := by
    rw [String.append_assoc ("# TYPE " ++ name)]
    rfl
  have hname : ((Counter.mk name help labelNames []).increment L 1).2.name = name := by
    simp [Counter.increment]
  have hhelp : ((Counter.mk name help labelNames []).increment L 1).2.help = help := by
    simp [Counter.increment]
  simp only [Counter.lines, headerLines, h1, h2, h3, hval, toString_int_ofNat, hname, hhelp,
    htype, List.map_cons, List.map_nil, List.cons_append, List.nil_append]

theorem mem_keys_upsert_of_mem {κ ν : Type} [DecidableEq κ] (d : ν) (f : ν → ν)
    (l : List (κ × ν)) (k k' : κ) (hmem : k' ∈ l.map Prod.fst) :
    k' ∈ (upsert d f l k).map Prod.fst := by
  by_cases hk : k' = k
  · rw [hk]
    exact mem_keys_upsert d f l k
  · exact (mem_keys_upsert_of_ne d f l hk).mpr hmem

theorem mem_of_mem_keys {κ ν : Type} [DecidableEq κ] (d : ν) (l : List (κ × ν)) (k : κ)
    (hmem : k ∈ l.map Prod.fst) : (k, lookupD d l k) ∈ l := by
  induction l with
  | nil => simp at hmem
  | cons e rest ih =>
    obtain ⟨k', v⟩ := e
    by_cases hk : k' = k
    · simp [lookupD, hk]
    · have hrest : k ∈ rest.map Prod.fst := by
        simp only [List.map_cons, List.mem_cons] at hmem
        rcases hmem with h | h
        · exact absurd h.symm hk
        · exact h
      simp only [lookupD, hk, if_false, List.mem_cons]
      exact Or.inr (ih hrest)

theorem Counter.incrementAll_ones (c : Counter) (calls : List LabelSet) (L : LabelSet) :
    (c.incrementAll (calls.map (fun K => (K, (1 : Int))))).get L = c.get L + calls.count L ∧
    (c.incrementAll (calls.map (fun K => (K, (1 : Int))))).name = c.name ∧
    (c.incrementAll (calls.map (fun K => (K, (1 : Int))))).help = c.help ∧
    (L ∈ c.labelSets ∨ 1 ≤ calls.count L →
      L ∈ (c.incrementAll (calls.map (fun K => (K, (1 : Int))))).labelSets) := by
  induction calls generalizing c with
  | nil =>
    refine ⟨by simp [Counter.incrementAll], rfl, rfl, ?_⟩
    intro h
    rcases h with h | h
    · exact h
    · simp at h
  | cons K rest ih =>
    obtain ⟨h1, h2, h3, h4⟩ := ih (c.increment K 1).2
    have hn : (c.increment K 1).2.name = c.name := by simp [Counter.increment]
    have hh : (c.increment K 1).2.help = c.help := by simp [Counter.increment]
    have hkeys : (c.increment K 1).2.labelSets
        = (upsert 0 (fun v => v + 1) c.values K).map Prod.fst := by
      simp [Counter.increment, Counter.labelSets]
    rw [List.map_cons, Counter.incrementAll, h1, h2, h3, hn, hh]
    refine ⟨?_, rfl, rfl, ?_⟩
    · by_cases hK : K = L
      · subst hK
        rw [Counter.increment_get_self c K 1 (by decide)]
        simp
        ring
      · rw [Counter.increment_get_of_ne c K 1 (Ne.symm hK)]
        simp [List.count_cons, hK]
    · intro h
      apply h4
      by_cases hK : K = L
      · subst hK
        left
        rw [hkeys]
        exact mem_keys_upsert _ _ _ _
      · rcases h with h | h
        · left
          rw [hkeys]
          exact mem_keys_upsert_of_mem _ _ _ _ _ h
        · right
          simpa [List.count_cons, hK] using h

theorem unlines_cons (l : String) (rest : List String) :
    unlines (l :: rest) = l ++ "\n" ++ unlines rest := rfl

/-- C5, as amended: for every counter name, help text, label names, label set
`L` and `n ≥ 1`: when `L` was incremented by 1 exactly `n` times on the counter
(among any increments by 1 of other label sets), the text rendered for any
registry holding the counter contains the line `# HELP <name> <help>` directly
followed by the line `# TYPE <name> counter` and, after them, the data line
`<name>{l1="v1",...} n`, each value between double quotes and the labels in the
order in which `L` itself lists them; the declared label names are not
consulted. When no other label set was incremented the data line follows the
`# TYPE` line directly. When `L` lists the declared labels in declaration
order, that is the order of the line. -/
theorem render_counter_spec (fmt : ℚ → String) (name help : String)
    (labelNames : List String) (L : LabelSet) (calls : List LabelSet) (n : Nat) (hn : 1 ≤ n)
    (hcount : calls.count L = n) (before after : List Instrument) :
    (∃ pre mid post : String,
      render fmt (before ++
          [.counter ((Counter.mk name help labelNames []).incrementAll
            (calls.map (fun K => (K, (1 : Int)))))] ++ after)
        = pre ++
          ("# HELP " ++ name ++ " " ++ help ++ "\n" ++ ("# TYPE " ++ name ++ " counter" ++ "\n"))
          ++ mid ++
          (name ++
            ("\x7b" ++ ",".intercalate (L.map (fun kv => kv.1 ++ "=\"" ++ kv.2 ++ "\"")) ++ "\x7d")
            ++ " " ++ toString n ++ "\n")
          ++ post ∧
      (calls = List.replicate n L → mid = "")) ∧
    (∀ vals : List String, L = labelNames.zip vals →
      L.map (fun kv => kv.1 ++ "=\"" ++ kv.2 ++ "\"")
        = List.zipWith (fun k v => k ++ "=\"" ++ v ++ "\"") labelNames vals) := by
  have htype : "# TYPE " ++ name ++ " " ++ "counter" = "# TYPE " ++ name ++ " counter" := by
    rw [String.append_assoc ("# TYPE " ++ name)]
    rfl
  refine ⟨?_, ?_⟩
  · by_cases hrep : calls = List.replicate n L
    · refine ⟨unlines (renderLines fmt before), "", unlines (renderLines fmt after), ?_,
        fun _ => rfl⟩
      rw [hrep, List.map_replicate]
      simp only [render, renderLines_append, renderLines, Instrument.lines, unlines_append,
        Counter.incrementAll_fresh name help labelNames _ n hn, List.append_nil, unlines,
        sampleLine, renderLabels, String.append_empty]
      simp only [String.append_assoc]
    · obtain ⟨hget, hname, hhelp, hmem⟩ :=
        Counter.incrementAll_ones (Counter.mk name help labelNames []) calls L
      have hkey := hmem (Or.inr (by omega))
      have hentry := mem_of_mem_keys (0 : Int) _ _ hkey
      have hval : lookupD (0 : Int)
          ((Counter.mk name help labelNames []).incrementAll
            (calls.map (fun K => (K, (1 : Int))))).values L = ((n : Nat) : Int) := by
        have := hget
        simp only [Counter.get, lookupD, zero_add, hcount] at this
        exact this
      rw [hval] at hentry
      obtain ⟨v1, v2, hsplit⟩ := List.append_of_mem hentry
      refine ⟨unlines (renderLines fmt before),
        unlines (v1.map (fun e => sampleLine name e.1 (toString e.2))),
        unlines (v2.map (fun e => sampleLine name e.1 (toString e.2)))
          ++ unlines (renderLines fmt after), ?_, fun h => absurd h hrep⟩
      simp only [render, renderLines_append, renderLines, Instrument.lines, unlines_append,
        Counter.lines, headerLines, hname, hhelp, hsplit, List.map_append, List.map_cons,
        List.append_nil, List.cons_append, List.nil_append, unlines, unlines_cons,
        toString_int_ofNat, htype, sampleLine, renderLabels, String.append_empty]
      simp only [String.append_assoc]
  · intro vals hL
    rw [hL, List.zip, List.map_zipWith]

/-- C5 as amended, the scenario of the spec: three increments of method GET,
route /api, status 200 on `requests_total`, the label set written in
declaration order and the numeric status code put into it as the middleware
does. -/
theorem render_counter_spec_witness :
    1 ≤ 3 ∧
    List.count [("method", "GET"), ("route", "/api"), ("status", toString 200)]
      (List.replicate 3 [("method", "GET"), ("route", "/api"), ("status", toString 200)]) = 3 ∧
    ∃ pre post : String,
      render (fun q => toString q.num)
          ([] ++ [.counter ((Counter.mk "requests_total" "Total requests"
            ["method", "route", "status"] []).incrementAll
              ((List.replicate 3
                [("method", "GET"), ("route", "/api"), ("status", toString 200)]).map
                  (fun K => (K, (1 : Int)))))] ++ [])
        = pre ++ ("# HELP requests_total Total requests\n" ++
            "# TYPE requests_total counter\n") ++ "" ++
            "requests_total\x7bmethod=\"GET\",route=\"/api\",status=\"200\"\x7d 3\n" ++ post := by
  refine ⟨by decide, by decide, ?_⟩
  obtain ⟨pre, mid, post, h, hmid⟩ := (render_counter_spec (fun q => toString q.num)
    "requests_total" "Total requests" ["method", "route", "status"]
    [("method", "GET"), ("route", "/api"), ("status", toString 200)]
    (List.replicate 3 [("method", "GET"), ("route", "/api"), ("status", toString 200)])
    3 (by decide) (by decide) [] []).1
  rw [hmid rfl] at h
  exact ⟨pre, post, h⟩

set_option maxRecDepth 100000 in
/-- C5 as stated fails: on `requests_total`, declared with the labels method,
route, status, one increment of the label set written status first renders the
data line status first, and the line in declaration order occurs nowhere in
the rendered text. -/
theorem render_counter_declaration_order_counterexample :
    render (fun q => toString q.num)
        [.counter ((Counter.mk "requests_total" "Total requests"
          ["method", "route", "status"] []).incrementAll
            [([("status", "200"), ("route", "/api"), ("method", "GET")], 1)])]
      = "# HELP requests_total Total requests\n# TYPE requests_total counter\n" ++
        "requests_total\x7bstatus=\"200\",route=\"/api\",method=\"GET\"\x7d 1\n" ∧
    ¬ ∃ pre post : String,
      render (fun q => toString q.num)
          [.counter ((Counter.mk "requests_total" "Total requests"
            ["method", "route", "status"] []).incrementAll
              [([("status", "200"), ("route", "/api"), ("method", "GET")], 1)])]
        = pre ++ "requests_total\x7bmethod=\"GET\",route=\"/api\",status=\"200\"\x7d 1" ++ post := by
  have hrender : render (fun q => toString q.num)
      [.counter ((Counter.mk "requests_total" "Total requests"
        ["method", "route", "status"] []).incrementAll
          [([("status", "200"), ("route", "/api"), ("method", "GET")], 1)])]
      = "# HELP requests_total Total requests\n# TYPE requests_total counter\n" ++
        "requests_total\x7bstatus=\"200\",route=\"/api\",method=\"GET\"\x7d 1\n" := by
    decide
  refine ⟨hrender, ?_⟩
  rintro ⟨pre, post, h⟩
  rw [hrender] at h
  have hinfix : ("requests_total\x7bmethod=\"GET\",route=\"/api\",status=\"200\"\x7d 1" : String).data
      <:+: ("# HELP requests_total Total requests\n# TYPE requests_total counter\n" ++
        "requests_total\x7bstatus=\"200\",route=\"/api\",method=\"GET\"\x7d 1\n" : String).data := by
    refine ⟨pre.data, post.data, ?_⟩
    rw [h]
    simp only [String.data_append]
  revert hinfix
  decide

/-! ## Rendered series change with the instruments -/

theorem string_append_left_cancel {a b c : String} (h : a ++ b = a ++ c) : b = c := by
  have hd := congrArg String.data h
  simp only [String.data_append] at hd
  exact String.ext (List.append_cancel_left hd)

theorem digitsValue_toString_int (i : Int) : digitsValue (toString i).data = i.natAbs := by
  cases i with
  | ofNat n => exact digitsValue_toString n
  | negSucc n =>
    have hs : toString (Int.negSucc n) = "-" ++ toString (n + 1) := rfl
    have hv := digitsValue_toString (n + 1)
    rw [hs, String.data_append]
    simp only [digitsValue] at hv ⊢
    rw [List.singleton_append, List.foldl_cons]
    have hminus : 10 * 0 + (('-' : Char).toNat - 48) = 0 := by decide
    rw [hminus, hv]
    rfl

theorem toString_int_succ_ne (v : Int) : toString (v + 1) ≠ toString v := by
  intro h
  have h1 := digitsValue_toString_int (v + 1)
  rw [h, digitsValue_toString_int] at h1
  omega

theorem toString_nat_succ_ne (n : Nat) : toString (n + 1) ≠ toString n := by
  intro h
  have := toString_nat_injective h
  omega

theorem sampleLine_value_inj {name : String} {L : LabelSet} {a b : String}
    (h : sampleLine name L a = sampleLine name L b) : a = b :=
  string_append_left_cancel h

theorem map_upsert_ne {κ ν β : Type} [DecidableEq κ] (d : ν) (f : ν → ν) (g : κ × ν → β)
    (hg : ∀ k v, g (k, f v) ≠ g (k, v)) (l : List (κ × ν)) (k : κ) :
    (upsert d f l k).map g ≠ l.map g := by
  induction l with
  | nil => simp [upsert]
  | cons e rest ih =>
    obtain ⟨k', v⟩ := e
    by_cases hk : k' = k
    · simp only [upsert, hk, if_true, List.map_cons]
      intro h
      exact hg k v (List.cons.inj h).1
    · simp only [upsert, hk, if_false, List.map_cons]
      intro h
      exact ih (List.cons.inj h).2

theorem Counter.lines_increment_ne (c : Counter) (L : LabelSet) :
    (c.increment L 1).2.lines ≠ c.lines := by
  intro h
  have hv : (c.increment L 1).2.values = upsert 0 (fun v => v + 1) c.values L := by
    simp [Counter.increment]
  have hn : (c.increment L 1).2.name = c.name := by simp [Counter.increment]
  have hh : (c.increment L 1).2.help = c.help := by simp [Counter.increment]
  simp only [Counter.lines, hv, hn, hh] at h
  refine map_upsert_ne (0 : Int) (fun v => v + 1)
    (fun e : LabelSet × Int => sampleLine c.name e.1 (toString e.2)) ?_ c.values L
    (List.append_cancel_left h)
  intro k v hkv
  exact toString_int_succ_ne v (sampleLine_value_inj hkv)

theorem Histogram.seriesLines_record_ne (fmt : ℚ → String) (h : Histogram) (L : LabelSet)
    (d : HistogramData) (bounds : List ℚ) (v : ℚ) :
    h.seriesLines fmt (L, d.record bounds v) ≠ h.seriesLines fmt (L, d) := by
  intro heq
  simp only [Histogram.seriesLines] at heq
  have htail := (List.append_inj heq (by simp)).2
  have hinf := (List.cons.inj htail).1
  have hstr := sampleLine_value_inj hinf
  exact toString_nat_succ_ne d.infCount hstr

theorem Histogram.dataLines_upsert_ne (fmt : ℚ → String) (h : Histogram) (bounds : List ℚ)
    (v : ℚ) (L : LabelSet) (vals : List (LabelSet × HistogramData)) :
    h.dataLines fmt (upsert HistogramData.zero (HistogramData.record bounds v) vals L)
      ≠ h.dataLines fmt vals := by
  induction vals with
  | nil =>
    intro heq
    have hlen := congrArg List.length heq
    simp [upsert, Histogram.dataLines, Histogram.seriesLines] at hlen
  | cons e rest ih =>
    obtain ⟨k', d⟩ := e
    by_cases hk : k' = L
    · simp only [upsert, hk, if_true, Histogram.dataLines]
      intro heq
      exact Histogram.seriesLines_record_ne fmt h L d bounds v (List.append_cancel_right heq)
    · simp only [upsert, hk, if_false, Histogram.dataLines]
      intro heq
      exact ih (List.append_cancel_left heq)

theorem Histogram.dataLines_congr (fmt : ℚ → String) (h h2 : Histogram)
    (hn : h2.name = h.name) (hb : h2.buckets = h.buckets)
    (vals : List (LabelSet × HistogramData)) :
    h2.dataLines fmt vals = h.dataLines fmt vals := by
  induction vals with
  | nil => rfl
  | cons e rest ih => simp [Histogram.dataLines, Histogram.seriesLines, hn, hb, ih]

theorem Histogram.lines_observe_ne (fmt : ℚ → String) (h : Histogram) (L : LabelSet) (v : ℚ) :
    (h.observe L v).lines fmt ≠ h.lines fmt := by
  intro heq
  have hcongr := Histogram.dataLines_congr fmt h (h.observe L v) rfl rfl (h.observe L v).values
  simp only [Histogram.lines, hcongr] at heq
  have hdata := List.append_cancel_left
    (show headerLines h.name h.help "histogram" ++ h.dataLines fmt (h.observe L v).values
      = headerLines h.name h.help "histogram" ++ h.dataLines fmt h.values from heq)
  exact Histogram.dataLines_upsert_ne fmt h h.buckets v L h.values hdata

/-! ## Rendered text changes with the instruments -/

theorem digitChar_ne_newline (k : Nat) (hk : k < 10) : Nat.digitChar k ≠ Char.ofNat 10 := by
  interval_cases k <;> decide

theorem toDigitsCore_no_newline (fuel : Nat) : ∀ (n : Nat) (ds : List Char),
    Char.ofNat 10 ∉ ds → Char.ofNat 10 ∉ Nat.toDigitsCore 10 fuel n ds := by
  induction fuel with
  | zero => intro n ds h; simpa [Nat.toDigitsCore] using h
  | succ fuel ih =>
    intro n ds h
    have hd : Char.ofNat 10 ∉ Nat.digitChar (n % 10) :: ds := by
      intro hmem
      rcases List.mem_cons.mp hmem with h1 | h1
      · exact digitChar_ne_newline (n % 10) (Nat.mod_lt _ (by decide)) h1.symm
      · exact h h1
    by_cases h0 : n / 10 = 0
    · simpa [Nat.toDigitsCore, h0] using hd
    · simpa [Nat.toDigitsCore, h0] using ih (n / 10) _ hd

theorem toString_nat_no_newline (n : Nat) : Char.ofNat 10 ∉ (toString n).data := by
  have h := toDigitsCore_no_newline (n + 1) n [] (by simp)
  simpa [toString, Nat.repr, Nat.toDigits] using h

theorem toString_int_no_newline (i : Int) : Char.ofNat 10 ∉ (toString i).data := by
  cases i with
  | ofNat n => exact toString_nat_no_newline n
  | negSucc n =>
    have hs : toString (Int.negSucc n) = "-" ++ toString (n + 1) := rfl
    rw [hs, String.data_append]
    intro hmem
    rcases List.mem_append.mp hmem with h1 | h1
    · revert h1
      decide
    · exact toString_nat_no_newline (n + 1) h1

theorem append_newline_inj : ∀ (l1 l2 x y : List Char), Char.ofNat 10 ∉ l1 →
    Char.ofNat 10 ∉ l2 → l1 ++ Char.ofNat 10 :: x = l2 ++ Char.ofNat 10 :: y →
    l1 = l2 ∧ x = y := by
  intro l1
  induction l1 with
  | nil =>
    intro l2 x y _ h2 h
    cases l2 with
    | nil => exact ⟨rfl, (List.cons.inj h).2⟩
    | cons c l2 =>
      exact absurd (List.mem_cons.mpr (Or.inl (List.cons.inj h).1)) h2
  | cons a l1 ih =>
    intro l2 x y h1 h2 h
    cases l2 with
    | nil =>
      exact absurd (List.mem_cons.mpr (Or.inl (List.cons.inj h).1.symm)) h1
    | cons c l2 =>
      have hh := List.cons.inj h
      obtain ⟨e1, e2⟩ := ih l2 x y (fun hm => h1 (List.mem_cons_of_mem _ hm))
        (fun hm => h2 (List.mem_cons_of_mem _ hm)) hh.2
      exact ⟨by rw [hh.1, e1], e2⟩

theorem numeral_line_inj {a b X Y : String} (ha : Char.ofNat 10 ∉ a.data)
    (hb : Char.ofNat 10 ∉ b.data) (h : a ++ ("\n" ++ X) = b ++ ("\n" ++ Y)) : a = b ∧ X = Y := by
  have hd := congrArg String.data h
  simp only [String.data_append] at hd
  obtain ⟨e1, e2⟩ := append_newline_inj a.data b.data X.data Y.data ha hb hd
  exact ⟨String.ext e1, String.ext e2⟩

theorem sampleLine_text_inj {name : String} {L : LabelSet} {a b X Y : String}
    (ha : Char.ofNat 10 ∉ a.data) (hb : Char.ofNat 10 ∉ b.data)
    (h : sampleLine name L a ++ "\n" ++ X = sampleLine name L b ++ "\n" ++ Y) :
    a = b ∧ X = Y := by
  simp only [sampleLine, String.append_assoc] at h
  exact numeral_line_inj ha hb
    (string_append_left_cancel (string_append_left_cancel (string_append_left_cancel h)))

theorem data_head_append (a b : String) (c : Char) (h : a.data.head? = some c) :
    (a ++ b).data.head? = some c := by
  rw [String.data_append]
  cases hd : a.data with
  | nil => rw [hd] at h; simp at h
  | cons x rest =>
    rw [hd] at h
    simpa using h

theorem unlines_cons_ne_empty (l : String) (rest : List String) (R : String) :
    unlines (l :: rest) ++ R ≠ "" := by
  intro h
  have hd := congrArg (fun s => s.data.length) h
  have hnl : ("\n" : String).data = [Char.ofNat 10] := rfl
  simp [unlines, String.data_append, hnl] at hd

theorem unlines_cons_append (l : String) (rest : List String) (R : String) :
    unlines (l :: rest) ++ R = l ++ "\n" ++ (unlines rest ++ R) := by
  rw [unlines, String.append_assoc]

theorem unlines_ne_empty (ls : List String) (hne : ls ≠ []) : unlines ls ≠ "" := by
  cases ls with
  | nil => exact absurd rfl hne
  | cons l rest =>
    have h := unlines_cons_ne_empty l rest ""
    rwa [String.append_empty] at h

theorem Counter.text_upsert_ne (name : String) (L : LabelSet) (R1 R2 : String)
    (hnil : ∀ s : String, sampleLine name L s ++ "\n" ++ R2 ≠ R1)
    (vals : List (LabelSet × Int)) :
    unlines ((upsert 0 (fun v => v + 1) vals L).map
        (fun e => sampleLine name e.1 (toString e.2))) ++ R2
      ≠ unlines (vals.map (fun e => sampleLine name e.1 (toString e.2))) ++ R1 := by
  induction vals with
  | nil =>
    intro h
    simp only [upsert, List.map_cons, List.map_nil, unlines, String.append_empty,
      String.empty_append] at h
    exact hnil _ h
  | cons e rest ih =>
    obtain ⟨k', v⟩ := e
    by_cases hk : k' = L
    · subst hk
      simp only [upsert, if_true, List.map_cons]
      intro h
      rw [unlines_cons_append, unlines_cons_append] at h
      have hinj := sampleLine_text_inj (toString_int_no_newline (v + 1))
        (toString_int_no_newline v) h
      exact toString_int_succ_ne v hinj.1
    · simp only [upsert, hk, if_false, List.map_cons]
      intro h
      rw [unlines_cons_append, unlines_cons_append] at h
      exact ih (string_append_left_cancel h)

theorem Histogram.seriesText_record_ne (fmt : ℚ → String) (h : Histogram) (L : LabelSet)
    (d : HistogramData) (bounds : List ℚ) (v : ℚ) (X1 X2 : String) :
    unlines (h.seriesLines fmt (L, d.record bounds v)) ++ X2
      ≠ unlines (h.seriesLines fmt (L, d)) ++ X1 := by
  simp only [Histogram.seriesLines]
  generalize h.buckets = bs
  induction bs with
  | nil =>
    intro heq
    simp only [List.map_nil, List.nil_append] at heq
    rw [unlines_cons_append _ _ X2, unlines_cons_append _ _ X1] at heq
    have hinj := sampleLine_text_inj (toString_nat_no_newline _) (toString_nat_no_newline _) heq
    have hn := toString_nat_injective hinj.1
    simp [HistogramData.record] at hn
  | cons B rest ih =>
    intro heq
    simp only [List.map_cons, List.cons_append] at heq
    rw [unlines_cons_append _ _ X2, unlines_cons_append _ _ X1] at heq
    have hinj := sampleLine_text_inj (toString_nat_no_newline _) (toString_nat_no_newline _) heq
    exact ih hinj.2

theorem Histogram.dataText_upsert_ne (fmt : ℚ → String) (h : Histogram) (bounds : List ℚ)
    (v : ℚ) (L : LabelSet) (vals : List (LabelSet × HistogramData)) :
    unlines (h.dataLines fmt (upsert HistogramData.zero (HistogramData.record bounds v) vals L))
      ≠ unlines (h.dataLines fmt vals) := by
  induction vals with
  | nil =>
    intro heq
    simp only [upsert, Histogram.dataLines, List.append_nil, unlines] at heq
    exact unlines_ne_empty _ (by simp [Histogram.seriesLines]) heq
  | cons e rest ih =>
    obtain ⟨k', d⟩ := e
    by_cases hk : k' = L
    · simp only [upsert, hk, if_true, Histogram.dataLines, unlines_append]
      exact Histogram.seriesText_record_ne fmt h L d bounds v _ _
    · simp only [upsert, hk, if_false, Histogram.dataLines, unlines_append]
      intro heq
      exact ih (string_append_left_cancel heq)

theorem Counter.text_increment_ne (c : Counter) (L : LabelSet) (R1 R2 : String)
    (hnil : ∀ s : String, sampleLine c.name L s ++ "\n" ++ R2 ≠ R1) :
    unlines (c.increment L 1).2.lines ++ R2 ≠ unlines c.lines ++ R1 := by
  have hv : (c.increment L 1).2.values = upsert 0 (fun v => v + 1) c.values L := by
    simp [Counter.increment]
  have hn : (c.increment L 1).2.name = c.name := by simp [Counter.increment]
  have hh : (c.increment L 1).2.help = c.help := by simp [Counter.increment]
  simp only [Counter.lines, hv, hn, hh, unlines_append, String.append_assoc]
  intro h
  exact Counter.text_upsert_ne c.name L R1 R2 hnil c.values (string_append_left_cancel h)

theorem Histogram.text_observe_ne (fmt : ℚ → String) (h : Histogram) (L : LabelSet) (v : ℚ) :
    unlines ((h.observe L v).lines fmt) ≠ unlines (h.lines fmt) := by
  intro heq
  have hcongr := Histogram.dataLines_congr fmt h (h.observe L v) rfl rfl (h.observe L v).values
  simp only [Histogram.lines, hcongr, unlines_append] at heq
  have hdata := string_append_left_cancel
    (show unlines (headerLines h.name h.help "histogram")
        ++ unlines (h.dataLines fmt (h.observe L v).values)
      = unlines (headerLines h.name h.help "histogram")
        ++ unlines (h.dataLines fmt h.values) from heq)
  exact Histogram.dataText_upsert_ne fmt h h.buckets v L h.values hdata

theorem head_sampleLine_text (name : String) (c : Char) (hname : name.data.head? = some c)
    (L : LabelSet) (s X : String) :
    (sampleLine name L s ++ "\n" ++ X).data.head? = some c := by
  unfold sampleLine
  exact data_head_append _ _ c (data_head_append _ _ c (data_head_append _ _ c
    (data_head_append _ _ c (data_head_append _ _ c hname))))

theorem head_histogram_text (fmt : ℚ → String) (h : Histogram) (X : String) :
    (unlines (h.lines fmt) ++ X).data.head? = some (Char.ofNat 35) := by
  simp only [Histogram.lines, headerLines, List.cons_append, unlines]
  exact data_head_append _ _ _ (data_head_append _ _ _ (data_head_append _ _ _
    (data_head_append _ _ _ (data_head_append _ _ _ (data_head_append _ _ _ rfl)))))

theorem render_register_text (fmt : ℚ → String) (st : AppState) :
    render fmt (register st)
      = unlines (renderLines fmt st.defaultMetrics) ++ unlines st.httpRequestCounter.lines
          ++ unlines (st.httpRequestDuration.lines fmt)
          ++ unlines (st.metricsGeneratedTs.lines fmt) := by
  rw [render, renderLines_register, unlines_append, unlines_append, unlines_append]

/-! ## A request to `/metrics` is itself instrumented -/

theorem serveMetrics_counter (fmt : ℚ → String) (st : AppState) (req : Request) (t0 : ℚ)
    (d : Nat) (t1 : ℚ) :
    (serveMetrics fmt st req t0 d t1).1.httpRequestCounter
      = (st.httpRequestCounter.increment (counterLabels req 200) 1).2 := by
  simp only [serveMetrics, FinishCallback.run_eq]
  rfl

theorem serveMetrics_duration (fmt : ℚ → String) (st : AppState) (req : Request) (t0 : ℚ)
    (d : Nat) (t1 : ℚ) :
    (serveMetrics fmt st req t0 d t1).1.httpRequestDuration
      = st.httpRequestDuration.observe (timerLabels req) (t1 - t0) := by
  simp only [serveMetrics, FinishCallback.run_eq]
  rfl

theorem serveMetrics_gauge (fmt : ℚ → String) (st : AppState) (req : Request) (t0 : ℚ)
    (d : Nat) (t1 : ℚ) :
    (serveMetrics fmt st req t0 d t1).1.metricsGeneratedTs
      = st.metricsGeneratedTs.set [] ((d : ℚ) / 1000) := by
  simp only [serveMetrics, FinishCallback.run_eq]
  rfl

theorem serveMetrics_defaults (fmt : ℚ → String) (st : AppState) (req : Request) (t0 : ℚ)
    (d : Nat) (t1 : ℚ) :
    (serveMetrics fmt st req t0 d t1).1.defaultMetrics = st.defaultMetrics := by
  simp only [serveMetrics, FinishCallback.run_eq]
  rfl

theorem counterLabels_metrics (req : Request) (hm : req.method = "GET")
    (hp : req.path = "/metrics") :
    counterLabels req 200 = [("method", "GET"), ("route", "/metrics"), ("status", "200")] := by
  simp only [counterLabels, hm, hp]
  rfl

theorem timerLabels_metrics (req : Request) (hm : req.method = "GET")
    (hp : req.path = "/metrics") :
    timerLabels req = [("method", "GET"), ("route", "/metrics")] := by
  simp only [timerLabels, hm, hp]

/-- C10: a `GET /metrics` request passes the metrics middleware like any other.
Served in any state, with its response finishing with status 200, it raises
`http_requests_total` for method GET, route /metrics, status 200 by one and
adds one observation (of `t1 - t0`) to `http_request_duration_seconds` for
method GET, route /metrics. This happens in the finish callback, after the
body was rendered: the body is the rendering of the state the handler left, in
which counter and histogram are still as before the request. Consequently,
when a second `GET /metrics` is served right after the first, the state its
body renders has the counter entry one higher and one more observation than the
state rendered by the first body, and the rendered counter block and the
rendered histogram block both differ from those of the first body. Each body
is the text of the default instruments followed by the text of the counter
block, of the histogram block and of the gauge block; from the first body to
the second the text of the counter block changes and the text of the histogram
block changes; the second body contains the data line of the /metrics counter
series with the value raised by one; and, the counter carrying its declared
name, the two bodies differ as texts whatever the two clock readings are, the
same reading included. -/
theorem serveMetrics_spec (fmt : ℚ → String) (st : AppState) (req req2 : Request)
    (hm : req.method = "GET") (hp : req.path = "/metrics")
    (hm2 : req2.method = "GET") (hp2 : req2.path = "/metrics")
    (t0 t1 t2 t3 : ℚ) (d d2 : Nat) :
    (serveMetrics fmt st req t0 d t1).2.statusCode = 200 ∧
    (serveMetrics fmt st req t0 d t1).1.httpRequestCounter.get
        [("method", "GET"), ("route", "/metrics"), ("status", "200")]
      = st.httpRequestCounter.get
          [("method", "GET"), ("route", "/metrics"), ("status", "200")] + 1 ∧
    (serveMetrics fmt st req t0 d t1).1.httpRequestDuration
      = st.httpRequestDuration.observe [("method", "GET"), ("route", "/metrics")] (t1 - t0) ∧
    ((serveMetrics fmt st req t0 d t1).1.httpRequestDuration.get
        [("method", "GET"), ("route", "/metrics")]).count
      = (st.httpRequestDuration.get [("method", "GET"), ("route", "/metrics")]).count + 1 ∧
    (serveMetrics fmt st req t0 d t1).2.body
      = render fmt (register (metricsHandler fmt st req d).1) ∧
    (metricsHandler fmt st req d).1.httpRequestCounter = st.httpRequestCounter ∧
    (metricsHandler fmt st req d).1.httpRequestDuration = st.httpRequestDuration ∧
    (serveMetrics fmt (serveMetrics fmt st req t0 d t1).1 req2 t2 d2 t3).2.body
      = render fmt
          (register (metricsHandler fmt (serveMetrics fmt st req t0 d t1).1 req2 d2).1) ∧
    (metricsHandler fmt (serveMetrics fmt st req t0 d t1).1 req2 d2).1.httpRequestCounter.get
        [("method", "GET"), ("route", "/metrics"), ("status", "200")]
      = (metricsHandler fmt st req d).1.httpRequestCounter.get
          [("method", "GET"), ("route", "/metrics"), ("status", "200")] + 1 ∧
    ((metricsHandler fmt (serveMetrics fmt st req t0 d t1).1 req2 d2).1.httpRequestDuration.get
        [("method", "GET"), ("route", "/metrics")]).count
      = ((metricsHandler fmt st req d).1.httpRequestDuration.get
          [("method", "GET"), ("route", "/metrics")]).count + 1 ∧
    (metricsHandler fmt (serveMetrics fmt st req t0 d t1).1 req2 d2).1.httpRequestCounter.lines
      ≠ (metricsHandler fmt st req d).1.httpRequestCounter.lines ∧
    (metricsHandler fmt (serveMetrics fmt st req t0 d t1).1 req2 d2).1.httpRequestDuration.lines
        fmt
      ≠ (metricsHandler fmt st req d).1.httpRequestDuration.lines fmt ∧
    (serveMetrics fmt (serveMetrics fmt st req t0 d t1).1 req2 t2 d2 t3).1.httpRequestCounter.get
        [("method", "GET"), ("route", "/metrics"), ("status", "200")]
      = st.httpRequestCounter.get
          [("method", "GET"), ("route", "/metrics"), ("status", "200")] + 2 ∧
    (serveMetrics fmt st req t0 d t1).2.body
      = unlines (renderLines fmt st.defaultMetrics)
        ++ unlines st.httpRequestCounter.lines
        ++ unlines (st.httpRequestDuration.lines fmt)
        ++ unlines ((st.metricsGeneratedTs.set [] ((d : ℚ) / 1000)).lines fmt) ∧
    (serveMetrics fmt (serveMetrics fmt st req t0 d t1).1 req2 t2 d2 t3).2.body
      = unlines (renderLines fmt st.defaultMetrics)
        ++ unlines (st.httpRequestCounter.increment
            [("method", "GET"), ("route", "/metrics"), ("status", "200")] 1).2.lines
        ++ unlines ((st.httpRequestDuration.observe
            [("method", "GET"), ("route", "/metrics")] (t1 - t0)).lines fmt)
        ++ unlines (((st.metricsGeneratedTs.set [] ((d : ℚ) / 1000)).set []
            ((d2 : ℚ) / 1000)).lines fmt) ∧
    unlines (st.httpRequestCounter.increment
        [("method", "GET"), ("route", "/metrics"), ("status", "200")] 1).2.lines
      ≠ unlines st.httpRequestCounter.lines ∧
    unlines ((st.httpRequestDuration.observe
        [("method", "GET"), ("route", "/metrics")] (t1 - t0)).lines fmt)
      ≠ unlines (st.httpRequestDuration.lines fmt) ∧
    (∃ pre post : String,
      (serveMetrics fmt (serveMetrics fmt st req t0 d t1).1 req2 t2 d2 t3).2.body
        = pre ++
          (sampleLine st.httpRequestCounter.name
            [("method", "GET"), ("route", "/metrics"), ("status", "200")]
            (toString (st.httpRequestCounter.get
              [("method", "GET"), ("route", "/metrics"), ("status", "200")] + 1)) ++ "\n")
          ++ post) ∧
    (st.httpRequestCounter.name = "http_requests_total" →
      (serveMetrics fmt (serveMetrics fmt st req t0 d t1).1 req2 t2 d2 t3).2.body
        ≠ (serveMetrics fmt st req t0 d t1).2.body) := by
  have hc := serveMetrics_counter fmt st req t0 d t1
  have hd := serveMetrics_duration fmt st req t0 d t1
  rw [counterLabels_metrics req hm hp] at hc
  rw [timerLabels_metrics req hm hp] at hd
  have hc2 := serveMetrics_counter fmt (serveMetrics fmt st req t0 d t1).1 req2 t2 d2 t3
  rw [counterLabels_metrics req2 hm2 hp2] at hc2
  have hr1 : (metricsHandler fmt st req d).1.httpRequestCounter = st.httpRequestCounter := rfl
  have hr1d : (metricsHandler fmt st req d).1.httpRequestDuration = st.httpRequestDuration := rfl
  have hr2 : (metricsHandler fmt (serveMetrics fmt st req t0 d t1).1 req2 d2).1.httpRequestCounter
      = (serveMetrics fmt st req t0 d t1).1.httpRequestCounter := rfl
  have hr2d :
      (metricsHandler fmt (serveMetrics fmt st req t0 d t1).1 req2 d2).1.httpRequestDuration
        = (serveMetrics fmt st req t0 d t1).1.httpRequestDuration := rfl
  have hget := Counter.increment_get_self st.httpRequestCounter
    [("method", "GET"), ("route", "/metrics"), ("status", "200")] 1 (by decide)
  have hcount : ((st.httpRequestDuration.observe [("method", "GET"), ("route", "/metrics")]
      (t1 - t0)).get [("method", "GET"), ("route", "/metrics")]).count
        = (st.httpRequestDuration.get [("method", "GET"), ("route", "/metrics")]).count + 1 := by
    rw [Histogram.observe_get_self]
    rfl
  have hb1 : (serveMetrics fmt st req t0 d t1).2.body
      = unlines (renderLines fmt st.defaultMetrics)
        ++ unlines st.httpRequestCounter.lines
        ++ unlines (st.httpRequestDuration.lines fmt)
        ++ unlines ((st.metricsGeneratedTs.set [] ((d : ℚ) / 1000)).lines fmt) := by
    have hbody : (serveMetrics fmt st req t0 d t1).2.body
        = render fmt (register (metricsHandler fmt st req d).1) := rfl
    rw [hbody, render_register_text]
    rfl
  have hb2 : (serveMetrics fmt (serveMetrics fmt st req t0 d t1).1 req2 t2 d2 t3).2.body
      = unlines (renderLines fmt st.defaultMetrics)
        ++ unlines (st.httpRequestCounter.increment
            [("method", "GET"), ("route", "/metrics"), ("status", "200")] 1).2.lines
        ++ unlines ((st.httpRequestDuration.observe
            [("method", "GET"), ("route", "/metrics")] (t1 - t0)).lines fmt)
        ++ unlines (((st.metricsGeneratedTs.set [] ((d : ℚ) / 1000)).set []
            ((d2 : ℚ) / 1000)).lines fmt) := by
    have hbody : (serveMetrics fmt (serveMetrics fmt st req t0 d t1).1 req2 t2 d2 t3).2.body
        = render fmt
            (register (metricsHandler fmt (serveMetrics fmt st req t0 d t1).1 req2 d2).1) := rfl
    have hg2 : (metricsHandler fmt (serveMetrics fmt st req t0 d t1).1 req2
        d2).1.metricsGeneratedTs
        = (serveMetrics fmt st req t0 d t1).1.metricsGeneratedTs.set [] ((d2 : ℚ) / 1000) := rfl
    have hdm2 : (metricsHandler fmt (serveMetrics fmt st req t0 d t1).1 req2
        d2).1.defaultMetrics = (serveMetrics fmt st req t0 d t1).1.defaultMetrics := rfl
    rw [hbody, render_register_text, hr2, hr2d, hg2, hdm2, hc, hd,
      serveMetrics_gauge, serveMetrics_defaults]
  have htextc : unlines (st.httpRequestCounter.increment
        [("method", "GET"), ("route", "/metrics"), ("status", "200")] 1).2.lines
      ≠ unlines st.httpRequestCounter.lines := by
    have h := Counter.text_increment_ne st.httpRequestCounter
      [("method", "GET"), ("route", "/metrics"), ("status", "200")] "" ""
      (fun s hs => by
        have hlen := congrArg (fun x => x.data.length) hs
        have hnl : ("\n" : String).data = [Char.ofNat 10] := rfl
        simp [String.data_append, hnl] at hlen)
    simpa only [String.append_empty] using h
  refine ⟨rfl, ?_, hd, ?_, rfl, hr1, hr1d, rfl, ?_, ?_, ?_, ?_, ?_, hb1, hb2, htextc,
    Histogram.text_observe_ne fmt _ _ _, ?_, ?_⟩
  · rw [hc]; exact hget
  · rw [hd]; exact hcount
  · rw [hr2, hr1, hc]; exact hget
  · rw [hr2d, hr1d, hd]; exact hcount
  · rw [hr2, hr1, hc]
    exact Counter.lines_increment_ne _ _
  · rw [hr2d, hr1d, hd]
    exact Histogram.lines_observe_ne fmt _ _ _
  · rw [hc2, Counter.increment_get_self _ _ 1 (by decide), hc, hget]
    ring
  · have hmem := mem_upsert (0 : Int) (fun v => v + 1) st.httpRequestCounter.values
      [("method", "GET"), ("route", "/metrics"), ("status", "200")]
    obtain ⟨v1, v2, hsplit⟩ := List.append_of_mem hmem
    have hv : (st.httpRequestCounter.increment
        [("method", "GET"), ("route", "/metrics"), ("status", "200")] 1).2.values
        = upsert 0 (fun v => v + 1) st.httpRequestCounter.values
            [("method", "GET"), ("route", "/metrics"), ("status", "200")] := by
      simp [Counter.increment]
    have hn : (st.httpRequestCounter.increment
        [("method", "GET"), ("route", "/metrics"), ("status", "200")] 1).2.name
        = st.httpRequestCounter.name := by
      simp [Counter.increment]
    refine ⟨unlines (renderLines fmt st.defaultMetrics)
        ++ unlines (headerLines st.httpRequestCounter.name
            (st.httpRequestCounter.increment
              [("method", "GET"), ("route", "/metrics"), ("status", "200")] 1).2.help "counter")
        ++ unlines (v1.map (fun e => sampleLine st.httpRequestCounter.name e.1 (toString e.2))),
      unlines (v2.map (fun e => sampleLine st.httpRequestCounter.name e.1 (toString e.2)))
        ++ unlines ((st.httpRequestDuration.observe
            [("method", "GET"), ("route", "/metrics")] (t1 - t0)).lines fmt)
        ++ unlines (((st.metricsGeneratedTs.set [] ((d : ℚ) / 1000)).set []
            ((d2 : ℚ) / 1000)).lines fmt), ?_⟩
    rw [hb2]
    simp only [Counter.lines, hv, hn, hsplit, List.map_append, List.map_cons, unlines_append,
      unlines_cons, Counter.get, String.append_assoc]
  · intro hname heq
    rw [hb1, hb2] at heq
    simp only [String.append_assoc] at heq
    refine Counter.text_increment_ne st.httpRequestCounter
      [("method", "GET"), ("route", "/metrics"), ("status", "200")] _ _ ?_
      (string_append_left_cancel heq)
    intro s hs
    have h1 := head_sampleLine_text st.httpRequestCounter.name (Char.ofNat 104)
      (by rw [hname]; rfl) [("method", "GET"), ("route", "/metrics"), ("status", "200")] s
      (unlines ((st.httpRequestDuration.observe
          [("method", "GET"), ("route", "/metrics")] (t1 - t0)).lines fmt)
        ++ unlines (((st.metricsGeneratedTs.set [] ((d : ℚ) / 1000)).set []
            ((d2 : ℚ) / 1000)).lines fmt))
    have h2 := head_histogram_text fmt st.httpRequestDuration
      (unlines ((st.metricsGeneratedTs.set [] ((d : ℚ) / 1000)).lines fmt))
    rw [hs, h2] at h1
    revert h1
    decide

/-- C10, on the fresh application: after one `GET /metrics` that took a quarter
of a second, the counter entry of the route /metrics is 1; and a second
`GET /metrics` served at the same clock reading returns a body that differs
from the first one. -/
theorem serveMetrics_spec_witness :
    (Request.mk "GET" "/metrics" [] [] "").method = "GET" ∧
    (Request.mk "GET" "/metrics" [] [] "").path = "/metrics" ∧
    (initialState []).httpRequestCounter.name = "http_requests_total" ∧
    (serveMetrics (fun q => toString q.num) (initialState [])
        (Request.mk "GET" "/metrics" [] [] "") 0 1700000000000 (1 / 4)).1.httpRequestCounter.get
      [("method", "GET"), ("route", "/metrics"), ("status", "200")] = 1 ∧
    (serveMetrics (fun q => toString q.num)
        (serveMetrics (fun q => toString q.num) (initialState [])
          (Request.mk "GET" "/metrics" [] [] "") 0 1700000000000 (1 / 4)).1
        (Request.mk "GET" "/metrics" [] [] "") 1 1700000000000 2).2.body
      ≠ (serveMetrics (fun q => toString q.num) (initialState [])
          (Request.mk "GET" "/metrics" [] [] "") 0 1700000000000 (1 / 4)).2.body := by
  obtain ⟨_, hget, _, _, _, _, _, _, _, _, _, _, _, _, _, _, _, _, hbody⟩ :=
    serveMetrics_spec (fun q => toString q.num) (initialState [])
      (Request.mk "GET" "/metrics" [] [] "") (Request.mk "GET" "/metrics" [] [] "")
      rfl rfl rfl rfl 0 (1 / 4) 1 2 1700000000000 1700000000000
  exact ⟨rfl, rfl, rfl, hget.trans (by decide), hbody rfl⟩

end SampleApp
